import Mathlib

/-!
Sawppy rover: RC pulse decoder and Ackermann wheel solver

Shallow embedding of `esp32_sawppy/lib/hardware/joy_rmt_rc.c` and
`esp32_sawppy/lib/rover/wheel_ackermann.c`.

Conventions of the embedding:

* C `float`/`double` values are elements of an arbitrary linearly ordered field `F`
  (exact arithmetic, no rounding, no NaN); results are evaluated over `ℚ` and, where
  `sqrt`/`atan` matter, over `ℝ`.
* A zero among the inputs is the positive zero. The sign of a computed zero is tracked
  where the code divides by it (line 122): `turnCenter` and `adjacent` carry a flag that
  tells whether they are the negative zero.
* `uint32_t` durations and tick counts are natural numbers.
* C arrays are functions `ℕ → F`; a `for` loop over `0 .. n-1` is a left fold over
  `List.range n`.
* One iteration of a task's `while(true)` loop is a function from the task state and the
  values handed back by the blocking FreeRTOS calls of that iteration to the next state.
-/

namespace Sawppy

/-! ## joy_rmt_rc.c : data -/

/-- One RMT capture entry (`rmt_item32_t`): two level/duration pairs. -/
structure rmt_item32_t where
  duration0 : ℕ
  level0 : ℕ
  duration1 : ℕ
  level1 : ℕ
  deriving DecidableEq, Repr

/-- What a successful `xRingbufferReceive` hands back: the captured entries. The byte
length of a delivered item is at least one entry, so that `items[length-1]` exists. -/
structure rmt_capture where
  items : List rmt_item32_t
  nonempty : items ≠ []

/-- Calibration constants `rc_receive_min` and `rc_receive_max`, declared in
`joy_rmt_rc.h`; they are taken as parameters. -/
structure rc_calibration where
  rc_receive_min : ℕ
  rc_receive_max : ℕ
  deriving DecidableEq, Repr

/-- Joystick message `joy_msg`: tick count and one value per axis. -/
structure joy_msg (F : Type) where
  timeStamp : ℕ
  axes : ℕ → F

/-- State of `joy_rmt_rc_read_task` between two iterations of its read loop: the local
`message` and the single slot of `xJoystickQueue`. -/
structure joy_task_state (F : Type) where
  message : joy_msg F
  xJoystickQueue : Option (joy_msg F)

/-! ## joy_rmt_rc.c : the read loop -/

/-- Lines 96 and 104-112: `duration` starts at `0` and takes the duration of the high
phase of the most recent entry. -/
def high_duration (recent : rmt_item32_t) : ℕ :=
  if recent.level0 ≠ 0 then recent.duration0
  else if recent.level1 ≠ 0 then recent.duration1
  else 0

/-- Lines 117-125: clamp between min and max. -/
def clamp_duration (c : rc_calibration) (duration : ℕ) : ℕ :=
  if duration < c.rc_receive_min then c.rc_receive_min
  else if duration > c.rc_receive_max then c.rc_receive_max
  else duration

/-- Line 128: `-1.0 + 2.0*((float)duration-rc_receive_min)/(rc_receive_max-rc_receive_min)`.
The denominator is an integer subtraction, converted afterwards. -/
def axis_value {F : Type} [LinearOrderedField F] (c : rc_calibration) (duration : ℕ) : F :=
  -1 + 2 * ((duration : F) - (c.rc_receive_min : F)) /
    (((c.rc_receive_max : ℤ) - (c.rc_receive_min : ℤ) : ℤ) : F)

/-- Lines 117-128: the value decoded from a raw duration: clamp, then map. -/
def decode_duration {F : Type} [LinearOrderedField F] (c : rc_calibration) (duration : ℕ) : F :=
  axis_value c (clamp_duration c duration)

/-- Lines 96-134: the value stored in `message.axes[i]` for what `xRingbufferReceive`
returned (`none` is the `NULL` return). -/
def read_axis {F : Type} [LinearOrderedField F] (c : rc_calibration) :
    Option rmt_capture → F
  | some capture =>
      decode_duration c (high_duration (capture.items.getLast capture.nonempty))
  | none => 0

/-- Lines 94-135: the `for` loop over the axes. -/
def read_axes {F : Type} [LinearOrderedField F] (c : rc_calibration) (axis_count : ℕ)
    (received : ℕ → Option rmt_capture) (axes : ℕ → F) : ℕ → F :=
  (List.range axis_count).foldl (fun a i => Function.update a i (read_axis c (received i))) axes

/-- Lines 94-139: one iteration of the read loop of `joy_rmt_rc_read_task`. `received i`
is the return of `xRingbufferReceive` on `ringbuffers[i]`, `tick` that of
`xTaskGetTickCount`. -/
def joy_rmt_rc_read_task_cycle {F : Type} [LinearOrderedField F] (c : rc_calibration)
    (axis_count : ℕ) (s : joy_task_state F) (received : ℕ → Option rmt_capture) (tick : ℕ) :
    joy_task_state F :=
  let message : joy_msg F :=
    { timeStamp := tick, axes := read_axes c axis_count received s.message.axes }
  { message := message, xJoystickQueue := some message }

/-- The clamp of the specification: `d` pinned into `[lo, hi]`. -/
def spec_clamp (d lo hi : ℕ) : ℕ := max lo (min d hi)

/-- The linear map of the specification, `-1 + 2*(d-min)/(max-min)`. -/
def spec_linear_map {F : Type} [LinearOrderedField F] (d lo hi : ℕ) : F :=
  -1 + 2 * ((d : F) - (lo : F)) / ((hi : F) - (lo : F))

/-- A capture of one entry whose first phase is high and lasts `d` ticks. -/
def pulse_capture (d : ℕ) : rmt_capture :=
  { items := [{ duration0 := d, level0 := 1, duration1 := 0, level1 := 0 }],
    nonempty := List.cons_ne_nil _ _ }

/-- The usual hobby RC calibration: pulses of 1000 to 2000 ticks. -/
def hobby_calibration : rc_calibration := { rc_receive_min := 1000, rc_receive_max := 2000 }

/-- A decoder state whose message holds `v` on every axis, nothing published yet. -/
def joy_state_const {F : Type} (v : F) : joy_task_state F :=
  { message := { timeStamp := 0, axes := fun _ => v }, xJoystickQueue := none }

/-! ## wheel_ackermann.c : data -/

/-- Three components of a velocity, the `linear` and `angular` members of `twist_msg`. -/
structure vector3 (F : Type) where
  x : F
  y : F
  z : F

/-- Velocity command `twist_msg` (the members the task reads). -/
structure twist_msg (F : Type) where
  linear : vector3 F
  angular : vector3 F

/-- Wheel command `wheel_msg`: tick count, steering angle and speed of each wheel. -/
structure wheel_msg (F : Type) where
  timeStamp : ℕ
  steer : ℕ → F
  speed : ℕ → F

/-- Entry of the `wheel_positions` table: body position of a wheel. -/
structure wheel_position (F : Type) where
  x : F
  y : F

/-- Constants declared in the headers of `wheel_ackermann.c`; they are taken as
parameters: the array length `WHEEL_MSG_DATA_COUNT`, the number of wheels `wheel_count`
and the table `wheel_positions`. -/
structure wheel_parameters (F : Type) where
  WHEEL_MSG_DATA_COUNT : ℕ
  wheel_count : ℕ
  wheel_positions : ℕ → wheel_position F

/-- The functions of the C math library the task calls. `atan_inf` is the value of `atan`
at `+∞`, returned for a quotient whose divisor is zero. -/
structure libm (F : Type) where
  sqrt : F → F
  atan : F → F
  atan_inf : F

/-- Lines written by `ESP_LOGE` and `ESP_LOGW`. -/
inductive log_line where
  | timeout_error
  | unsupported_axes_warning
  deriving DecidableEq, Repr

/-- State of `wheel_ackermann_task` between two iterations of its loop: the locals
`wheelData` and `timeoutNotify`, and the single slot of `xWheelQueue`. -/
structure wheel_task_state (F : Type) where
  wheelData : wheel_msg F
  timeoutNotify : Bool
  xWheelQueue : Option (wheel_msg F)

/-! ## wheel_ackermann.c : the solver -/

/-- Lines 41-48: `wheel_msg_reset`, with the array length as argument. -/
def wheel_msg_reset {F : Type} [LinearOrderedField F] (WHEEL_MSG_DATA_COUNT : ℕ)
    (pwheel_msg : wheel_msg F) : wheel_msg F :=
  (List.range WHEEL_MSG_DATA_COUNT).foldl
    (fun m wheel =>
      { m with steer := Function.update m.steer wheel 0,
               speed := Function.update m.speed wheel 0 })
    pwheel_msg

/-- Lines 96-99: straight motion copies the linear velocity to every wheel. -/
def straight_loop {F : Type} [LinearOrderedField F] (wheel_count : ℕ) (velocityLinear : F)
    (wheelData : wheel_msg F) : wheel_msg F :=
  (List.range wheel_count).foldl
    (fun m wheel => { m with speed := Function.update m.speed wheel velocityLinear })
    wheelData

/-- Line 104: `turnCenter = velocityLinear / velocityAngular`. -/
def turnCenter {F : Type} [LinearOrderedField F] (velocityLinear velocityAngular : F) : F :=
  velocityLinear / velocityAngular

/-- Line 110: `opposite = wheel_positions[wheel].x`. -/
def opposite {F : Type} [LinearOrderedField F] (p : wheel_position F) : F := p.x

/-- Line 111: `adjacent = turnCenter - wheel_positions[wheel].y`. -/
def adjacent {F : Type} [LinearOrderedField F] (tc : F) (p : wheel_position F) : F :=
  tc - p.y

/-- Line 112: `hypotenuse = sqrt(pow(opposite, 2) + pow(adjacent, 2))`. -/
def hypotenuse {F : Type} [LinearOrderedField F] (lm : libm F) (opp adj : F) : F :=
  lm.sqrt (opp ^ 2 + adj ^ 2)

/-- Line 104 in float arithmetic: the quotient `velocityLinear / velocityAngular` is the
negative zero when a zero `velocityLinear` is divided by a negative `velocityAngular`. -/
def turnCenter_negative_zero {F : Type} [LinearOrderedField F]
    (velocityLinear velocityAngular : F) : Bool :=
  decide (velocityLinear = 0 ∧ velocityAngular < 0)

/-- Line 111 in float arithmetic: the difference `turnCenter - y` is the negative zero
when `turnCenter` is the negative zero and `y` is zero; a difference of equal values is
the positive zero in every other case. -/
def adjacent_negative_zero {F : Type} [LinearOrderedField F] (tc_negative_zero : Bool)
    (p : wheel_position F) : Bool :=
  tc_negative_zero && decide (p.y = 0)

/-- Line 122: `atan(opposite / adjacent)`, evaluated only for `opposite ≠ 0`. A float
division of a non-zero value by zero does not trap: it gives an infinity, whose sign is
the sign of the dividend for the positive zero and the opposite sign for the negative
zero (`negative_zero` tells which zero `adj` is), and `atan` of it is `±atan_inf`. -/
def atan_quotient {F : Type} [LinearOrderedField F] (lm : libm F) (opp adj : F)
    (negative_zero : Bool) : F :=
  if adj = 0 then
    if negative_zero then (if 0 < opp then -lm.atan_inf else lm.atan_inf)
    else (if 0 < opp then lm.atan_inf else -lm.atan_inf)
  else lm.atan (opp / adj)

/-- Lines 115-123: the Ackermann steering angle. -/
def steer_angle {F : Type} [LinearOrderedField F] (lm : libm F) (opp adj : F)
    (negative_zero : Bool) : F :=
  if opp = 0 then 0 else atan_quotient lm opp adj negative_zero

/-- C `copysign(x, y)`: the magnitude of `x` with the sign of `y`. -/
def copysign {F : Type} [LinearOrderedField F] (x y : F) : F :=
  if 0 ≤ y then |x| else -|x|

/-- Lines 125-132: `velocityAngular * hypotenuse`, re-signed by `copysign` when
`turnCenter` is not zero. -/
def resigned_speed {F : Type} [LinearOrderedField F] (velocityLinear velocityAngular tc hyp : F) :
    F :=
  if tc ≠ 0 then copysign (velocityAngular * hyp) velocityLinear
  else velocityAngular * hyp

/-- Lines 135-136: the condition under which the motor speed is reversed. -/
def center_inside_wheel {F : Type} [LinearOrderedField F] (tc y : F) : Prop :=
  (tc > 0 ∧ y > 0 ∧ y > tc) ∨ (tc < 0 ∧ y < 0 ∧ y < tc)

instance {F : Type} [LinearOrderedField F] (tc y : F) : Decidable (center_inside_wheel tc y) := by
  unfold center_inside_wheel; infer_instance

/-- Lines 125-139: the speed stored for a wheel in arc motion. -/
def wheel_speed {F : Type} [LinearOrderedField F] (lm : libm F)
    (velocityLinear velocityAngular : F) (p : wheel_position F) : F :=
  let tc := turnCenter velocityLinear velocityAngular
  let hyp := hypotenuse lm (opposite p) (adjacent tc p)
  let speed := resigned_speed velocityLinear velocityAngular tc hyp
  if center_inside_wheel tc p.y then speed * -1 else speed

/-- Lines 115-123: the steering angle stored for a wheel in arc motion. -/
def wheel_steer {F : Type} [LinearOrderedField F] (lm : libm F)
    (velocityLinear velocityAngular : F) (p : wheel_position F) : F :=
  steer_angle lm (opposite p) (adjacent (turnCenter velocityLinear velocityAngular) p)
    (adjacent_negative_zero (turnCenter_negative_zero velocityLinear velocityAngular) p)

/-- Lines 107-140: the loop over the wheels in arc motion. -/
def arc_loop {F : Type} [LinearOrderedField F] (lm : libm F) (cfg : wheel_parameters F)
    (velocityLinear velocityAngular : F) (wheelData : wheel_msg F) : wheel_msg F :=
  (List.range cfg.wheel_count).foldl
    (fun m wheel =>
      { m with
        steer := Function.update m.steer wheel
          (wheel_steer lm velocityLinear velocityAngular (cfg.wheel_positions wheel)),
        speed := Function.update m.speed wheel
          (wheel_speed lm velocityLinear velocityAngular (cfg.wheel_positions wheel)) })
    wheelData

/-- Lines 79-85: the warning about velocity along unsupported axes. -/
def unsupported_axes_log {F : Type} [LinearOrderedField F] (cmdVelData : twist_msg F) :
    List log_line :=
  if 0 ≠ cmdVelData.angular.x ∨ 0 ≠ cmdVelData.angular.y ∨
      0 ≠ cmdVelData.linear.y ∨ 0 ≠ cmdVelData.linear.z
  then [log_line.unsupported_axes_warning] else []

/-- Lines 87-143: the wheel message computed from a received velocity command. -/
def solve {F : Type} [LinearOrderedField F] (lm : libm F) (cfg : wheel_parameters F)
    (cmdVelData : twist_msg F) (wheelData : wheel_msg F) (tick : ℕ) : wheel_msg F :=
  let velocityLinear := cmdVelData.linear.x
  let velocityAngular := cmdVelData.angular.z
  let wheelData := wheel_msg_reset cfg.WHEEL_MSG_DATA_COUNT wheelData
  let wheelData :=
    if 0 = cmdVelData.angular.z then straight_loop cfg.wheel_count velocityLinear wheelData
    else arc_loop lm cfg velocityLinear velocityAngular wheelData
  { wheelData with timeStamp := tick }

/-- Lines 75-152: one iteration of the loop of `wheel_ackermann_task`. `received` is what
`xQueueReceive` delivered (`none` when it timed out), `tick` the return of
`xTaskGetTickCount`. The result is the next state and the lines logged. -/
def wheel_ackermann_task_cycle {F : Type} [LinearOrderedField F] (lm : libm F)
    (cfg : wheel_parameters F) (s : wheel_task_state F) (received : Option (twist_msg F))
    (tick : ℕ) : wheel_task_state F × List log_line :=
  match received with
  | some cmdVelData =>
      let wheelData := solve lm cfg cmdVelData s.wheelData tick
      ({ wheelData := wheelData, timeoutNotify := true, xWheelQueue := some wheelData },
        unsupported_axes_log cmdVelData)
  | none =>
      if s.timeoutNotify then ({ s with timeoutNotify := false }, [log_line.timeout_error])
      else (s, [])

/-- Lines 56-71: the state in which the task enters its loop: `wheelData` stamped and
reset, `timeoutNotify` set. `wheelData` is the uninitialised local, `queue` the content
of `xWheelQueue` at that time. -/
def wheel_ackermann_task_start {F : Type} [LinearOrderedField F] (cfg : wheel_parameters F)
    (wheelData : wheel_msg F) (tick : ℕ) (queue : Option (wheel_msg F)) : wheel_task_state F :=
  { wheelData := wheel_msg_reset cfg.WHEEL_MSG_DATA_COUNT { wheelData with timeStamp := tick },
    timeoutNotify := true,
    xWheelQueue := queue }

/-- Lines 72-153: the loop of `wheel_ackermann_task` run over a finite sequence of
iterations; the result is the final state and the lines logged by each iteration. -/
def wheel_ackermann_task_run {F : Type} [LinearOrderedField F] (lm : libm F)
    (cfg : wheel_parameters F) :
    wheel_task_state F → List (Option (twist_msg F) × ℕ) → wheel_task_state F × List (List log_line)
  | s, [] => (s, [])
  | s, (received, tick) :: rest =>
      let r := wheel_ackermann_task_cycle lm cfg s received tick
      let rs := wheel_ackermann_task_run lm cfg r.1 rest
      (rs.1, r.2 :: rs.2)

/-- The math library over the reals: `sqrt`, `atan` and `π/2` for `atan` at infinity. -/
noncomputable def real_libm : libm ℝ :=
  { sqrt := Real.sqrt, atan := Real.arctan, atan_inf := Real.pi / 2 }

/-- A rover of three wheels, at `(1, 0)`, `(1/2, 2)` and `(0, -1)`, with message arrays
of length six. -/
def sample_rover {F : Type} [LinearOrderedField F] : wheel_parameters F :=
  { WHEEL_MSG_DATA_COUNT := 6,
    wheel_count := 3,
    wheel_positions := fun wheel =>
      if wheel = 0 then { x := 1, y := 0 }
      else if wheel = 1 then { x := 1 / 2, y := 2 }
      else { x := 0, y := -1 } }

/-- A velocity command in the plane: `linear.x = v`, `angular.z = w`. -/
def planar_twist {F : Type} [LinearOrderedField F] (v w : F) : twist_msg F :=
  { linear := { x := v, y := 0, z := 0 }, angular := { x := 0, y := 0, z := w } }

/-- A solver state whose message holds `a` everywhere, with `timeoutNotify` set and
nothing published yet. -/
def wheel_state_const {F : Type} (a : F) : wheel_task_state F :=
  { wheelData := { timeStamp := 0, steer := fun _ => a, speed := fun _ => a },
    timeoutNotify := true,
    xWheelQueue := none }

/-- The reversal condition in the words of the specification: `tc` lies strictly
between `0` and `y`. -/
@[reducible] def strictly_between_zero_and {F : Type} [LinearOrderedField F] (tc y : F) : Prop :=
  (0 < tc ∧ tc < y) ∨ (y < tc ∧ tc < 0)

/-- Lines 104-132 for one wheel: the speed after the `copysign` step, before the
reversal test. -/
def arc_resigned_speed {F : Type} [LinearOrderedField F] (lm : libm F)
    (velocityLinear velocityAngular : F) (p : wheel_position F) : F :=
  resigned_speed velocityLinear velocityAngular (turnCenter velocityLinear velocityAngular)
    (hypotenuse lm (opposite p) (adjacent (turnCenter velocityLinear velocityAngular) p))

/-- Iteration `j` of a run is a timeout of `xQueueReceive`. -/
def is_timeout {F : Type} (inputs : List (Option (twist_msg F) × ℕ)) (j : ℕ) : Bool :=
  match inputs[j]? with
  | some (none, _) => true
  | _ => false

/-- Iteration `j` of a run received a velocity command. -/
def is_command {F : Type} (inputs : List (Option (twist_msg F) × ℕ)) (j : ℕ) : Bool :=
  match inputs[j]? with
  | some (some _, _) => true
  | _ => false

/-- Iteration `k` is the first timeout since the start of the task or since the most
recent received command: every earlier timeout is followed, before `k`, by a command. -/
@[reducible] def first_timeout_of_episode {F : Type}
    (inputs : List (Option (twist_msg F) × ℕ)) (k : ℕ) : Prop :=
  ∀ j, j < k → is_timeout inputs j = true →
    ∃ m, m < k ∧ (j < m ∧ is_command inputs m = true)

/-- A capture whose most recent entry is `recent`, after the entries `earlier`. -/
def capture_ending (earlier : List rmt_item32_t) (recent : rmt_item32_t) : rmt_capture :=
  { items := earlier ++ [recent],
    nonempty := List.append_ne_nil_of_right_ne_nil earlier (List.cons_ne_nil recent []) }

/-- A rover of one wheel at `p`, with message arrays of length one. -/
def single_wheel_rover {F : Type} [LinearOrderedField F] (p : wheel_position F) :
    wheel_parameters F :=
  { WHEEL_MSG_DATA_COUNT := 1, wheel_count := 1, wheel_positions := fun _ => p }

/-- A wheel message stamped `t` that holds `a` in every steer and speed entry. -/
def wheel_msg_const {F : Type} (t : ℕ) (a : F) : wheel_msg F :=
  { timeStamp := t, steer := fun _ => a, speed := fun _ => a }

/-! ## Start of the two tasks -/

/-- The `esp_err_t` value `ESP_OK`. -/
def ESP_OK : ℤ := 0

/-- Lines `joy_rmt_rc_read_task` writes with `printf`. -/
inductive joy_print where
  | parameter_null
  | rmt_config_failed
  | rmt_driver_install_failed
  | rmt_get_ringbuf_handle_failed
  | rmt_get_ringbuf_handle_null
  | rmt_rx_start_failed
  deriving DecidableEq, Repr

/-- What the driver calls of lines 74-84 return for one axis: the four error codes and
the handle stored in `ringbuffers[i]` (`none` is `NULL`). -/
structure rmt_axis_setup where
  rmt_config : ℤ
  rmt_driver_install : ℤ
  rmt_get_ringbuf_handle : ℤ
  ringbuffer : Option ℕ
  rmt_rx_start : ℤ
  deriving DecidableEq, Repr

/-- Lines 36-42: `check` prints `output` when `value` holds, then returns to its
caller. -/
def check (value : Bool) (output : joy_print) : List joy_print :=
  if value then [output] else []

/-- Lines 74-85: the checks made on one axis, in order. -/
def rmt_setup_axis (r : rmt_axis_setup) : List joy_print :=
  check (decide (ESP_OK ≠ r.rmt_config)) joy_print.rmt_config_failed ++
  check (decide (ESP_OK ≠ r.rmt_driver_install)) joy_print.rmt_driver_install_failed ++
  check (decide (ESP_OK ≠ r.rmt_get_ringbuf_handle)) joy_print.rmt_get_ringbuf_handle_failed ++
  check r.ringbuffer.isNone joy_print.rmt_get_ringbuf_handle_null ++
  check (decide (ESP_OK ≠ r.rmt_rx_start)) joy_print.rmt_rx_start_failed

/-- Lines 61-86: the configuration loop over the axes; the result is what it prints. -/
def rmt_setup (axis_count : ℕ) (setup : ℕ → rmt_axis_setup) : List joy_print :=
  (List.range axis_count).foldl (fun printed i => printed ++ rmt_setup_axis (setup i)) []

/-- Outcome of `joy_rmt_rc_read_task` over a finite number of iterations: whether the
task deleted itself before its read loop, the lines printed before the loop, the number
of loop iterations run, and the task state (message and queue slot) at the end. -/
structure joy_task_result (F : Type) where
  deleted : Bool
  printed : List joy_print
  iterations : ℕ
  state : joy_task_state F

/-- Lines 44-141: `joy_rmt_rc_read_task`. `pvParameter` is the queue handle (`none` is
`NULL`), `setup` what the driver calls return, `s` the uninitialised `message` with the
content of the queue when the task starts, `inputs` what each loop iteration receives.
`vTaskDelete(NULL)` ends the task. -/
def joy_rmt_rc_read_task {F : Type} [LinearOrderedField F] (c : rc_calibration)
    (axis_count : ℕ) (pvParameter : Option ℕ) (setup : ℕ → rmt_axis_setup)
    (s : joy_task_state F) (inputs : List ((ℕ → Option rmt_capture) × ℕ)) :
    joy_task_result F :=
  match pvParameter with
  | none =>
      { deleted := true, printed := [joy_print.parameter_null], iterations := 0, state := s }
  | some _ =>
      { deleted := false,
        printed := rmt_setup axis_count setup,
        iterations := inputs.length,
        state := inputs.foldl
          (fun st input => joy_rmt_rc_read_task_cycle c axis_count st input.1 input.2) s }

/-- The structure `wheel_ackermann_task_parameters`: two queue handles (`none` is
`NULL`). -/
structure wheel_ackermann_task_parameters where
  xCmdVelQueue : Option ℕ
  xWheelQueue : Option ℕ
  deriving DecidableEq, Repr

/-- Outcome of `wheel_ackermann_task` over a finite number of iterations: whether the
task deleted itself before its loop, the number of loop iterations run, the task state
at the end and the lines logged by each iteration. -/
structure wheel_task_result (F : Type) where
  deleted : Bool
  iterations : ℕ
  state : wheel_task_state F
  logged : List (List log_line)

/-- Lines 50-154: `wheel_ackermann_task`. `pvParameter` is the parameter block (`none` is
`NULL`), `wheelData` the uninitialised local, `queue` the content of the wheel queue when
the task starts, `inputs` what each loop iteration receives. When a parameter is missing
the task logs an error and `vTaskDelete(NULL)` ends it. -/
def wheel_ackermann_task {F : Type} [LinearOrderedField F] (lm : libm F)
    (cfg : wheel_parameters F) (pvParameter : Option wheel_ackermann_task_parameters)
    (wheelData : wheel_msg F) (tick : ℕ) (queue : Option (wheel_msg F))
    (inputs : List (Option (twist_msg F) × ℕ)) : wheel_task_result F :=
  let s := wheel_ackermann_task_start cfg wheelData tick queue
  match pvParameter with
  | none => { deleted := true, iterations := 0, state := s, logged := [] }
  | some pTaskParameters =>
      if pTaskParameters.xCmdVelQueue.isNone || pTaskParameters.xWheelQueue.isNone then
        { deleted := true, iterations := 0, state := s, logged := [] }
      else
        { deleted := false,
          iterations := inputs.length,
          state := (wheel_ackermann_task_run lm cfg s inputs).1,
          logged := (wheel_ackermann_task_run lm cfg s inputs).2 }

/-- Driver results for an axis on which every call succeeds. -/
def setup_ok : rmt_axis_setup :=
  { rmt_config := 0, rmt_driver_install := 0, rmt_get_ringbuf_handle := 0,
    ringbuffer := some 1, rmt_rx_start := 0 }

/-- Driver results for an axis on which `rmt_config` fails with `ESP_FAIL` (-1) and the
other calls succeed. -/
def setup_config_failed : rmt_axis_setup :=
  { rmt_config := -1, rmt_driver_install := 0, rmt_get_ringbuf_handle := 0,
    ringbuffer := some 1, rmt_rx_start := 0 }

/-! ## Decoder lemmas -/

theorem foldl_update_range {α : Type} (f : ℕ → α) (n : ℕ) (a : ℕ → α) (j : ℕ) :
    (List.range n).foldl (fun a i => Function.update a i (f i)) a j
      = if j < n then f j else a j := by
  induction n with
  | zero => simp
  | succ n ih =>
    rw [List.range_succ, List.foldl_append]
    simp only [List.foldl_cons, List.foldl_nil]
    by_cases h : j = n
    · subst h; simp
    · rw [Function.update_noteq h, ih]
      by_cases h1 : j < n
      · simp [h1, Nat.lt_succ_of_lt h1]
      · have : ¬ j < n + 1 := by omega
        simp [h1, this]

theorem read_axes_apply {F : Type} [LinearOrderedField F] (c : rc_calibration)
    (axis_count : ℕ) (received : ℕ → Option rmt_capture) (axes : ℕ → F) (j : ℕ) :
    read_axes c axis_count received axes j
      = if j < axis_count then read_axis c (received j) else axes j := by
  unfold read_axes
  exact foldl_update_range (fun i => read_axis c (received i)) axis_count axes j

theorem clamp_duration_ge (c : rc_calibration) (h : c.rc_receive_min < c.rc_receive_max)
    (d : ℕ) : c.rc_receive_min ≤ clamp_duration c d := by
  unfold clamp_duration; split_ifs <;> omega

theorem clamp_duration_le (c : rc_calibration) (h : c.rc_receive_min < c.rc_receive_max)
    (d : ℕ) : clamp_duration c d ≤ c.rc_receive_max := by
  unfold clamp_duration; split_ifs <;> omega

theorem clamp_duration_mono (c : rc_calibration) (h : c.rc_receive_min < c.rc_receive_max)
    {d1 d2 : ℕ} (hd : d1 ≤ d2) : clamp_duration c d1 ≤ clamp_duration c d2 := by
  unfold clamp_duration; split_ifs <;> omega

theorem axis_value_eq {F : Type} [LinearOrderedField F] (c : rc_calibration) (d : ℕ) :
    (axis_value c d : F)
      = -1 + 2 * ((d : F) - c.rc_receive_min) / ((c.rc_receive_max : F) - c.rc_receive_min) := by
  unfold axis_value; push_cast; rfl

theorem span_pos {F : Type} [LinearOrderedField F] (c : rc_calibration)
    (h : c.rc_receive_min < c.rc_receive_max) :
    (0 : F) < (c.rc_receive_max : F) - c.rc_receive_min := by
  have : (c.rc_receive_min : F) < c.rc_receive_max := by exact_mod_cast h
  linarith

theorem axis_value_mono {F : Type} [LinearOrderedField F] (c : rc_calibration)
    (h : c.rc_receive_min < c.rc_receive_max) {d1 d2 : ℕ} (hd : d1 ≤ d2) :
    (axis_value c d1 : F) ≤ axis_value c d2 := by
  rw [axis_value_eq, axis_value_eq]
  have hs := span_pos (F := F) c h
  have hd' : (d1 : F) ≤ d2 := by exact_mod_cast hd
  have : 2 * ((d1 : F) - c.rc_receive_min) / ((c.rc_receive_max : F) - c.rc_receive_min)
      ≤ 2 * ((d2 : F) - c.rc_receive_min) / ((c.rc_receive_max : F) - c.rc_receive_min) := by
    apply div_le_div_of_nonneg_right _ hs.le
    linarith
  linarith

theorem axis_value_min {F : Type} [LinearOrderedField F] (c : rc_calibration) :
    (axis_value c c.rc_receive_min : F) = -1 := by
  rw [axis_value_eq]; simp

theorem axis_value_max {F : Type} [LinearOrderedField F] (c : rc_calibration)
    (h : c.rc_receive_min < c.rc_receive_max) :
    (axis_value c c.rc_receive_max : F) = 1 := by
  rw [axis_value_eq]
  have hs := span_pos (F := F) c h
  rw [mul_div_assoc, div_self hs.ne']; norm_num

theorem axis_value_clamp_range {F : Type} [LinearOrderedField F] (c : rc_calibration)
    (h : c.rc_receive_min < c.rc_receive_max) (d : ℕ) :
    (-1 : F) ≤ axis_value c (clamp_duration c d) ∧ (axis_value c (clamp_duration c d) : F) ≤ 1 := by
  constructor
  · rw [← axis_value_min (F := F) c]
    exact axis_value_mono c h (clamp_duration_ge c h d)
  · rw [← axis_value_max (F := F) c h]
    exact axis_value_mono c h (clamp_duration_le c h d)

theorem read_axis_range {F : Type} [LinearOrderedField F] (c : rc_calibration)
    (h : c.rc_receive_min < c.rc_receive_max) (r : Option rmt_capture) :
    (-1 : F) ≤ read_axis c r ∧ (read_axis c r : F) ≤ 1 := by
  cases r with
  | none => simp [read_axis]
  | some capture => exact axis_value_clamp_range c h _

/-! ## Pulse decoder: claims -/

/-- C1 (pulse decoder range): for every calibration with `rc_receive_min < rc_receive_max`
and whatever each axis received in a cycle (a capture of any durations, or nothing), the
cycle publishes a snapshot, equal to the task's message, whose value on every axis
`i < axis_count` lies in `[-1, 1]`. -/
theorem C1_decoder_range {F : Type} [LinearOrderedField F] (c : rc_calibration)
    (h : c.rc_receive_min < c.rc_receive_max) (axis_count : ℕ) (s : joy_task_state F)
    (received : ℕ → Option rmt_capture) (tick i : ℕ) (hi : i < axis_count) :
    ∃ msg : joy_msg F,
      (joy_rmt_rc_read_task_cycle c axis_count s received tick).xJoystickQueue = some msg ∧
      (joy_rmt_rc_read_task_cycle c axis_count s received tick).message = msg ∧
      -1 ≤ msg.axes i ∧ msg.axes i ≤ 1 := by
  refine ⟨_, rfl, rfl, ?_⟩
  simp only [read_axes_apply, hi, if_true]
  exact read_axis_range c h _

/-- Witness of C1: the hobby calibration, two axes, axis 0 far out of range and axis 1
without data, over a previous message holding 5 everywhere. -/
theorem C1_decoder_range_witness :
    hobby_calibration.rc_receive_min < hobby_calibration.rc_receive_max ∧ 0 < 2 ∧
    ∃ msg : joy_msg ℚ,
      (joy_rmt_rc_read_task_cycle hobby_calibration 2 (joy_state_const 5)
        (fun i => if i = 0 then some (pulse_capture 4000000000) else none) 7).xJoystickQueue
          = some msg ∧
      (joy_rmt_rc_read_task_cycle hobby_calibration 2 (joy_state_const 5)
        (fun i => if i = 0 then some (pulse_capture 4000000000) else none) 7).message = msg ∧
      -1 ≤ msg.axes 0 ∧ msg.axes 0 ≤ 1 :=
  ⟨by decide, by decide,
    C1_decoder_range hobby_calibration (by decide) 2 (joy_state_const 5)
      (fun i => if i = 0 then some (pulse_capture 4000000000) else none) 7 0 (by decide)⟩

/-- C2 (failsafe centre): in any decode cycle, an axis `i < axis_count` whose receive
returned nothing has value `0` in the published snapshot, whatever the previous message
held and whatever the other axes received; and the value of every other axis is the one
it would have had if axis `i` had received any data `e`. -/
theorem C2_failsafe_centre {F : Type} [LinearOrderedField F] (c : rc_calibration)
    (axis_count : ℕ) (s : joy_task_state F) (received : ℕ → Option rmt_capture)
    (tick i : ℕ) (hi : i < axis_count) (hnone : received i = none) :
    ∃ msg : joy_msg F,
      (joy_rmt_rc_read_task_cycle c axis_count s received tick).xJoystickQueue = some msg ∧
      msg.axes i = 0 ∧
      ∀ (e : rmt_capture) (j : ℕ), j ≠ i →
        (joy_rmt_rc_read_task_cycle c axis_count s
          (Function.update received i (some e)) tick).message.axes j = msg.axes j := by
  refine ⟨_, rfl, ?_, ?_⟩
  · simp only [read_axes_apply, hi, if_true, hnone, read_axis]
  · intro e j hj
    simp only [joy_rmt_rc_read_task_cycle, read_axes_apply, Function.update_noteq hj]

/-- Witness of C2: two axes, axis 1 without data while axis 0 receives a pulse, over a
previous message holding 5 everywhere. -/
theorem C2_failsafe_centre_witness :
    1 < 2 ∧ (fun i => if i = 0 then some (pulse_capture 1250) else none) 1 = none ∧
    ∃ msg : joy_msg ℚ,
      (joy_rmt_rc_read_task_cycle hobby_calibration 2 (joy_state_const 5)
        (fun i => if i = 0 then some (pulse_capture 1250) else none) 7).xJoystickQueue
          = some msg ∧
      msg.axes 1 = 0 ∧
      ∀ (e : rmt_capture) (j : ℕ), j ≠ 1 →
        (joy_rmt_rc_read_task_cycle hobby_calibration 2 (joy_state_const 5)
          (Function.update (fun i => if i = 0 then some (pulse_capture 1250) else none) 1
            (some e)) 7).message.axes j = msg.axes j :=
  ⟨by decide, rfl,
    C2_failsafe_centre hobby_calibration 2 (joy_state_const 5)
      (fun i => if i = 0 then some (pulse_capture 1250) else none) 7 1 (by decide) rfl⟩

/-- C3 (clamping before mapping): with `rc_receive_min < rc_receive_max`, a duration below
the minimum decodes to exactly `-1`, one above the maximum to exactly `1`, and every
duration decodes to the linear map of the specification applied to the duration clamped
into `[min, max]`. -/
theorem C3_clamp_before_map {F : Type} [LinearOrderedField F] (c : rc_calibration)
    (h : c.rc_receive_min < c.rc_receive_max) (d : ℕ) :
    (d < c.rc_receive_min → (decode_duration c d : F) = -1) ∧
    (c.rc_receive_max < d → (decode_duration c d : F) = 1) ∧
    (decode_duration c d : F)
      = spec_linear_map (spec_clamp d c.rc_receive_min c.rc_receive_max)
          c.rc_receive_min c.rc_receive_max := by
  refine ⟨?_, ?_, ?_⟩
  · intro hd
    have : clamp_duration c d = c.rc_receive_min := by simp [clamp_duration, hd]
    rw [decode_duration, this, axis_value_min]
  · intro hd
    have : clamp_duration c d = c.rc_receive_max := by
      unfold clamp_duration; split_ifs <;> first | rfl | omega
    rw [decode_duration, this, axis_value_max c h]
  · have : clamp_duration c d = spec_clamp d c.rc_receive_min c.rc_receive_max := by
      unfold clamp_duration spec_clamp
      split_ifs <;> omega
    rw [decode_duration, this, axis_value_eq]; rfl

/-- Witness of C3: the hobby calibration and a duration of 2500 ticks. -/
theorem C3_clamp_before_map_witness :
    hobby_calibration.rc_receive_min < hobby_calibration.rc_receive_max ∧
    (2500 < hobby_calibration.rc_receive_min → (decode_duration hobby_calibration 2500 : ℚ) = -1) ∧
    (hobby_calibration.rc_receive_max < 2500 → (decode_duration hobby_calibration 2500 : ℚ) = 1) ∧
    (decode_duration hobby_calibration 2500 : ℚ)
      = spec_linear_map (spec_clamp 2500 hobby_calibration.rc_receive_min
          hobby_calibration.rc_receive_max)
          hobby_calibration.rc_receive_min hobby_calibration.rc_receive_max :=
  ⟨by decide, C3_clamp_before_map hobby_calibration (by decide) 2500⟩

/-- C4 (anchor points): with `rc_receive_min < rc_receive_max`, the minimum decodes to
`-1`, the maximum to `1`, a midpoint (`2*d = min + max`) to `0`, and every duration in
`[min, max]` to `-1 + 2*(d - min)/(max - min)`. -/
theorem C4_anchor_points {F : Type} [LinearOrderedField F] (c : rc_calibration)
    (h : c.rc_receive_min < c.rc_receive_max) :
    (decode_duration c c.rc_receive_min : F) = -1 ∧
    (decode_duration c c.rc_receive_max : F) = 1 ∧
    (∀ d : ℕ, 2 * d = c.rc_receive_min + c.rc_receive_max → (decode_duration c d : F) = 0) ∧
    (∀ d : ℕ, c.rc_receive_min ≤ d → d ≤ c.rc_receive_max →
      (decode_duration c d : F) = spec_linear_map d c.rc_receive_min c.rc_receive_max) := by
  have hin : ∀ d : ℕ, c.rc_receive_min ≤ d → d ≤ c.rc_receive_max →
      (decode_duration c d : F) = spec_linear_map d c.rc_receive_min c.rc_receive_max := by
    intro d h1 h2
    have : clamp_duration c d = d := by unfold clamp_duration; split_ifs <;> omega
    rw [decode_duration, this, axis_value_eq]; rfl
  refine ⟨?_, ?_, ?_, hin⟩
  · rw [hin _ le_rfl h.le, spec_linear_map]; simp
  · rw [hin _ h.le le_rfl, spec_linear_map]
    have hs := span_pos (F := F) c h
    rw [mul_div_assoc, div_self hs.ne']; norm_num
  · intro d hd
    rw [hin d (by omega) (by omega), spec_linear_map]
    have hs := span_pos (F := F) c h
    have hd' : 2 * (d : F) = (c.rc_receive_min : F) + c.rc_receive_max := by exact_mod_cast hd
    have : 2 * ((d : F) - c.rc_receive_min) = (c.rc_receive_max : F) - c.rc_receive_min := by
      linarith
    rw [this, div_self hs.ne']; norm_num

/-- Witness of C4: the hobby calibration, whose midpoint is 1500. -/
theorem C4_anchor_points_witness :
    hobby_calibration.rc_receive_min < hobby_calibration.rc_receive_max ∧
    (decode_duration hobby_calibration hobby_calibration.rc_receive_min : ℚ) = -1 ∧
    (decode_duration hobby_calibration hobby_calibration.rc_receive_max : ℚ) = 1 ∧
    (∀ d : ℕ, 2 * d = hobby_calibration.rc_receive_min + hobby_calibration.rc_receive_max →
      (decode_duration hobby_calibration d : ℚ) = 0) ∧
    (∀ d : ℕ, hobby_calibration.rc_receive_min ≤ d → d ≤ hobby_calibration.rc_receive_max →
      (decode_duration hobby_calibration d : ℚ)
        = spec_linear_map d hobby_calibration.rc_receive_min hobby_calibration.rc_receive_max) :=
  ⟨by decide, C4_anchor_points hobby_calibration (by decide)⟩

/-- C5 (monotonicity of decoding): with `rc_receive_min < rc_receive_max`, for all raw
durations `d1 ≤ d2`, in or out of `[min, max]`, the value decoded from `d1` is at most
the value decoded from `d2`. -/
theorem C5_decode_monotone {F : Type} [LinearOrderedField F] (c : rc_calibration)
    (h : c.rc_receive_min < c.rc_receive_max) (d1 d2 : ℕ) (hd : d1 ≤ d2) :
    (decode_duration c d1 : F) ≤ decode_duration c d2 :=
  axis_value_mono c h (clamp_duration_mono c h hd)

/-- Witness of C5: the hobby calibration, durations 900 (below range) and 1700. -/
theorem C5_decode_monotone_witness :
    hobby_calibration.rc_receive_min < hobby_calibration.rc_receive_max ∧ 900 ≤ 1700 ∧
    (decode_duration hobby_calibration 900 : ℚ) ≤ decode_duration hobby_calibration 1700 :=
  ⟨by decide, by decide, C5_decode_monotone hobby_calibration (by decide) 900 1700 (by decide)⟩

/-! ## Solver lemmas -/

theorem foldl_update_steer_speed {F : Type} (f g : ℕ → F) (n : ℕ) (m : wheel_msg F) :
    (List.range n).foldl
      (fun m wheel =>
        { m with steer := Function.update m.steer wheel (f wheel),
                 speed := Function.update m.speed wheel (g wheel) }) m
      = { timeStamp := m.timeStamp,
          steer := fun j => if j < n then f j else m.steer j,
          speed := fun j => if j < n then g j else m.speed j } := by
  induction n with
  | zero => simp
  | succ n ih =>
    rw [List.range_succ, List.foldl_append, ih]
    simp only [List.foldl_cons, List.foldl_nil]
    congr 1 <;> funext j <;> by_cases h : j = n
    · subst h; simp
    · rw [Function.update_noteq h]
      by_cases h1 : j < n
      · simp [h1, Nat.lt_succ_of_lt h1]
      · have : ¬ j < n + 1 := by omega
        simp [h1, this]
    · subst h; simp
    · rw [Function.update_noteq h]
      by_cases h1 : j < n
      · simp [h1, Nat.lt_succ_of_lt h1]
      · have : ¬ j < n + 1 := by omega
        simp [h1, this]

theorem foldl_update_speed {F : Type} (g : ℕ → F) (n : ℕ) (m : wheel_msg F) :
    (List.range n).foldl
      (fun m wheel => { m with speed := Function.update m.speed wheel (g wheel) }) m
      = { timeStamp := m.timeStamp,
          steer := m.steer,
          speed := fun j => if j < n then g j else m.speed j } := by
  induction n with
  | zero => simp
  | succ n ih =>
    rw [List.range_succ, List.foldl_append, ih]
    simp only [List.foldl_cons, List.foldl_nil]
    congr 1; funext j; by_cases h : j = n
    · subst h; simp
    · rw [Function.update_noteq h]
      by_cases h1 : j < n
      · simp [h1, Nat.lt_succ_of_lt h1]
      · have : ¬ j < n + 1 := by omega
        simp [h1, this]

theorem wheel_msg_reset_eq {F : Type} [LinearOrderedField F] (n : ℕ) (m : wheel_msg F) :
    wheel_msg_reset n m
      = { timeStamp := m.timeStamp,
          steer := fun j => if j < n then 0 else m.steer j,
          speed := fun j => if j < n then 0 else m.speed j } :=
  foldl_update_steer_speed (fun _ => 0) (fun _ => 0) n m

theorem straight_loop_eq {F : Type} [LinearOrderedField F] (n : ℕ) (v : F) (m : wheel_msg F) :
    straight_loop n v m
      = { timeStamp := m.timeStamp,
          steer := m.steer,
          speed := fun j => if j < n then v else m.speed j } :=
  foldl_update_speed (fun _ => v) n m

theorem arc_loop_eq {F : Type} [LinearOrderedField F] (lm : libm F) (cfg : wheel_parameters F)
    (v w : F) (m : wheel_msg F) :
    arc_loop lm cfg v w m
      = { timeStamp := m.timeStamp,
          steer := fun j =>
            if j < cfg.wheel_count then wheel_steer lm v w (cfg.wheel_positions j)
            else m.steer j,
          speed := fun j =>
            if j < cfg.wheel_count then wheel_speed lm v w (cfg.wheel_positions j)
            else m.speed j } :=
  foldl_update_steer_speed _ _ cfg.wheel_count m

theorem solve_straight {F : Type} [LinearOrderedField F] (lm : libm F)
    (cfg : wheel_parameters F) (hcount : cfg.wheel_count ≤ cfg.WHEEL_MSG_DATA_COUNT)
    (cmd : twist_msg F) (m : wheel_msg F) (tick wheel : ℕ) (hz : cmd.angular.z = 0)
    (hw : wheel < cfg.wheel_count) :
    (solve lm cfg cmd m tick).steer wheel = 0 ∧
    (solve lm cfg cmd m tick).speed wheel = cmd.linear.x := by
  have hw2 : wheel < cfg.WHEEL_MSG_DATA_COUNT := lt_of_lt_of_le hw hcount
  simp [solve, hz, straight_loop_eq, wheel_msg_reset_eq, hw, hw2]

theorem solve_arc {F : Type} [LinearOrderedField F] (lm : libm F)
    (cfg : wheel_parameters F) (cmd : twist_msg F) (m : wheel_msg F) (tick wheel : ℕ)
    (hz : cmd.angular.z ≠ 0) (hw : wheel < cfg.wheel_count) :
    (solve lm cfg cmd m tick).steer wheel
      = wheel_steer lm cmd.linear.x cmd.angular.z (cfg.wheel_positions wheel) ∧
    (solve lm cfg cmd m tick).speed wheel
      = wheel_speed lm cmd.linear.x cmd.angular.z (cfg.wheel_positions wheel) := by
  have hz' : ¬ (0 = cmd.angular.z) := fun h => hz h.symm
  simp [solve, hz', arc_loop_eq, hw]

theorem not_center_inside_zero {F : Type} [LinearOrderedField F] (y : F) :
    ¬ center_inside_wheel 0 y := by
  unfold center_inside_wheel
  rintro (⟨h, _, _⟩ | ⟨h, _, _⟩) <;> exact lt_irrefl _ h

theorem center_inside_wheel_iff {F : Type} [LinearOrderedField F] (tc y : F) :
    center_inside_wheel tc y ↔ (0 < tc ∧ tc < y) ∨ (y < tc ∧ tc < 0) := by
  unfold center_inside_wheel
  constructor
  · rintro (⟨h1, _, h3⟩ | ⟨h1, _, h3⟩)
    · exact Or.inl ⟨h1, h3⟩
    · exact Or.inr ⟨h3, h1⟩
  · rintro (⟨h1, h2⟩ | ⟨h1, h2⟩)
    · exact Or.inl ⟨h1, lt_trans h1 h2, h2⟩
    · exact Or.inr ⟨h2, lt_trans h1 h2, h1⟩

/-! ## Sign of the zero divisor -/

/-- C6 (straight motion): for every velocity command with `angular.z = 0`, whatever its
other components, and any wheel geometry that fits the message arrays, the wheel command
published by one solver cycle has `steer = 0` and `speed = linear.x` for every wheel
`wheel < wheel_count`. -/
theorem C6_straight_motion {F : Type} [LinearOrderedField F] (lm : libm F)
    (cfg : wheel_parameters F) (hcount : cfg.wheel_count ≤ cfg.WHEEL_MSG_DATA_COUNT)
    (s : wheel_task_state F) (cmd : twist_msg F) (tick wheel : ℕ)
    (hz : cmd.angular.z = 0) (hw : wheel < cfg.wheel_count) :
    ∃ msg : wheel_msg F,
      (wheel_ackermann_task_cycle lm cfg s (some cmd) tick).1.xWheelQueue = some msg ∧
      msg.steer wheel = 0 ∧ msg.speed wheel = cmd.linear.x :=
  ⟨_, rfl, solve_straight lm cfg hcount cmd s.wheelData tick wheel hz hw⟩

/-- Witness of C6: the sample rover driven straight at `3/4` with out-of-plane
components set, over a previous message holding 9 everywhere. -/
theorem C6_straight_motion_witness :
    (sample_rover : wheel_parameters ℝ).wheel_count
      ≤ (sample_rover : wheel_parameters ℝ).WHEEL_MSG_DATA_COUNT ∧
    ({ linear := { x := 3 / 4, y := 2, z := 5 },
       angular := { x := 1, y := 7, z := 0 } } : twist_msg ℝ).angular.z = 0 ∧
    2 < (sample_rover : wheel_parameters ℝ).wheel_count ∧
    ∃ msg : wheel_msg ℝ,
      (wheel_ackermann_task_cycle real_libm sample_rover (wheel_state_const 9)
        (some { linear := { x := 3 / 4, y := 2, z := 5 },
                angular := { x := 1, y := 7, z := 0 } }) 11).1.xWheelQueue = some msg ∧
      msg.steer 2 = 0 ∧
      msg.speed 2 = ({ linear := { x := 3 / 4, y := 2, z := 5 },
                       angular := { x := 1, y := 7, z := 0 } } : twist_msg ℝ).linear.x :=
  ⟨by decide, rfl, by decide,
    C6_straight_motion real_libm sample_rover (by decide) (wheel_state_const 9)
      { linear := { x := 3 / 4, y := 2, z := 5 }, angular := { x := 1, y := 7, z := 0 } }
      11 2 rfl (by decide)⟩

/-- C8, as stated, fails: for `linear.x = 1`, `angular.z = 1` and wheel 0 of the sample
rover at `(1, 0)`, `adjacent` is not `0`, `hypotenuse` is not `1`, and the command the
cycle publishes has neither `steer = π/2` nor `speed = 1`. -/
theorem C8_arc_example_counterexample :
    (sample_rover : wheel_parameters ℝ).wheel_positions 0 = { x := 1, y := 0 } ∧
    adjacent (turnCenter (1 : ℝ) 1) { x := 1, y := 0 } ≠ 0 ∧
    hypotenuse real_libm (opposite ({ x := 1, y := 0 } : wheel_position ℝ))
      (adjacent (turnCenter (1 : ℝ) 1) { x := 1, y := 0 }) ≠ 1 ∧
    (wheel_ackermann_task_cycle real_libm sample_rover (wheel_state_const 9)
        (some (planar_twist 1 1)) 11).1.xWheelQueue
      = some (solve real_libm sample_rover (planar_twist 1 1)
          (wheel_state_const (9 : ℝ)).wheelData 11) ∧
    (solve real_libm sample_rover (planar_twist 1 1)
        (wheel_state_const (9 : ℝ)).wheelData 11).steer 0 ≠ Real.pi / 2 ∧
    (solve real_libm sample_rover (planar_twist 1 1)
        (wheel_state_const (9 : ℝ)).wheelData 11).speed 0 ≠ 1 := by
  have h2 : Real.sqrt 2 ≠ 1 := by
    intro h
    have := Real.sq_sqrt (show (0 : ℝ) ≤ 2 by norm_num)
    rw [h] at this; norm_num at this
  have hadj : adjacent (turnCenter (1 : ℝ) 1) { x := 1, y := 0 } = 1 := by
    simp [adjacent, turnCenter]
  have hhyp : hypotenuse real_libm (opposite ({ x := 1, y := 0 } : wheel_position ℝ))
      (adjacent (turnCenter (1 : ℝ) 1) { x := 1, y := 0 }) = Real.sqrt 2 := by
    rw [hadj]; simp only [hypotenuse, opposite, real_libm]; norm_num
  have hz : (planar_twist (1 : ℝ) 1).angular.z ≠ 0 := by norm_num [planar_twist]
  obtain ⟨hst, hsp⟩ := solve_arc real_libm sample_rover (planar_twist 1 1)
    (wheel_state_const (9 : ℝ)).wheelData 11 0 hz (by decide)
  have hpos : (sample_rover : wheel_parameters ℝ).wheel_positions 0 = { x := 1, y := 0 } := by
    simp [sample_rover]
  refine ⟨hpos, by rw [hadj]; norm_num, by rw [hhyp]; exact h2, rfl, ?_, ?_⟩
  · rw [hst, hpos]
    simp only [planar_twist, wheel_steer, hadj, opposite, steer_angle, atan_quotient,
      real_libm, one_ne_zero, if_false, div_one, Real.arctan_one]
    intro h
    have := Real.pi_pos
    linarith
  · rw [hsp, hpos]
    simp only [planar_twist, wheel_speed, hhyp]
    have hno : ¬ center_inside_wheel (turnCenter (1 : ℝ) 1) 0 := by
      simp [center_inside_wheel]
    rw [if_neg hno]
    have htc : turnCenter (1 : ℝ) 1 ≠ 0 := by simp [turnCenter]
    simp only [resigned_speed, ne_eq, htc, not_false_eq_true, if_true, copysign, one_mul,
      zero_le_one, abs_of_nonneg (Real.sqrt_nonneg 2)]
    exact h2

/-- C8, amended: for the command `linear.x = 1`, `angular.z = 1` and a wheel at
`(1, 0)`, the solver computes `turnCenter = 1`, `opposite = 1`, `adjacent = 1`,
`hypotenuse = sqrt 2`, and publishes `steer = π/4` and `speed = sqrt 2`, with no
direction reversal. -/
theorem C8_arc_example (cfg : wheel_parameters ℝ) (s : wheel_task_state ℝ)
    (cmd : twist_msg ℝ) (tick wheel : ℕ) (hv : cmd.linear.x = 1) (hw : cmd.angular.z = 1)
    (hwheel : wheel < cfg.wheel_count) (hpos : cfg.wheel_positions wheel = { x := 1, y := 0 }) :
    ∃ msg : wheel_msg ℝ,
      (wheel_ackermann_task_cycle real_libm cfg s (some cmd) tick).1.xWheelQueue = some msg ∧
      turnCenter cmd.linear.x cmd.angular.z = 1 ∧
      opposite (cfg.wheel_positions wheel) = 1 ∧
      adjacent (turnCenter cmd.linear.x cmd.angular.z) (cfg.wheel_positions wheel) = 1 ∧
      hypotenuse real_libm (opposite (cfg.wheel_positions wheel))
        (adjacent (turnCenter cmd.linear.x cmd.angular.z) (cfg.wheel_positions wheel))
          = Real.sqrt 2 ∧
      msg.steer wheel = Real.pi / 4 ∧
      msg.speed wheel = Real.sqrt 2 ∧
      ¬ center_inside_wheel (turnCenter cmd.linear.x cmd.angular.z)
          (cfg.wheel_positions wheel).y := by
  have hz : cmd.angular.z ≠ 0 := by rw [hw]; exact one_ne_zero
  obtain ⟨hst, hsp⟩ := solve_arc real_libm cfg cmd s.wheelData tick wheel hz hwheel
  have htc : turnCenter cmd.linear.x cmd.angular.z = 1 := by simp [turnCenter, hv, hw]
  have hopp : opposite (cfg.wheel_positions wheel) = 1 := by rw [hpos]; rfl
  have hadj : adjacent (turnCenter cmd.linear.x cmd.angular.z) (cfg.wheel_positions wheel)
      = 1 := by
    rw [htc, hpos]; simp [adjacent]
  have hhyp : hypotenuse real_libm (opposite (cfg.wheel_positions wheel))
      (adjacent (turnCenter cmd.linear.x cmd.angular.z) (cfg.wheel_positions wheel))
        = Real.sqrt 2 := by
    rw [hopp, hadj]; simp only [hypotenuse, real_libm]; norm_num
  have hno : ¬ center_inside_wheel (turnCenter cmd.linear.x cmd.angular.z)
      (cfg.wheel_positions wheel).y := by
    rw [htc, hpos]; simp [center_inside_wheel]
  refine ⟨_, rfl, htc, hopp, hadj, hhyp, ?_, ?_, hno⟩
  · show (solve real_libm cfg cmd s.wheelData tick).steer wheel = _
    rw [hst, wheel_steer, hopp, hadj]
    simp only [steer_angle, atan_quotient, real_libm, one_ne_zero, if_false, div_one,
      Real.arctan_one]
  · show (solve real_libm cfg cmd s.wheelData tick).speed wheel = _
    rw [hsp]
    simp only [wheel_speed, hhyp, if_neg hno]
    have htc0 : turnCenter cmd.linear.x cmd.angular.z ≠ 0 := by rw [htc]; exact one_ne_zero
    rw [resigned_speed, if_pos htc0, copysign, hv, hw, if_pos zero_le_one, one_mul,
      abs_of_nonneg (Real.sqrt_nonneg 2)]

/-- Witness of the amended C8: wheel 0 of the sample rover. -/
theorem C8_arc_example_witness :
    (planar_twist 1 1 : twist_msg ℝ).linear.x = 1 ∧
    (planar_twist 1 1 : twist_msg ℝ).angular.z = 1 ∧
    0 < (sample_rover : wheel_parameters ℝ).wheel_count ∧
    (sample_rover : wheel_parameters ℝ).wheel_positions 0 = { x := 1, y := 0 } ∧
    ∃ msg : wheel_msg ℝ,
      (wheel_ackermann_task_cycle real_libm sample_rover (wheel_state_const 9)
        (some (planar_twist 1 1)) 11).1.xWheelQueue = some msg ∧
      turnCenter (planar_twist 1 1 : twist_msg ℝ).linear.x
        (planar_twist 1 1 : twist_msg ℝ).angular.z = 1 ∧
      opposite ((sample_rover : wheel_parameters ℝ).wheel_positions 0) = 1 ∧
      adjacent (turnCenter (planar_twist 1 1 : twist_msg ℝ).linear.x
        (planar_twist 1 1 : twist_msg ℝ).angular.z)
        ((sample_rover : wheel_parameters ℝ).wheel_positions 0) = 1 ∧
      hypotenuse real_libm (opposite ((sample_rover : wheel_parameters ℝ).wheel_positions 0))
        (adjacent (turnCenter (planar_twist 1 1 : twist_msg ℝ).linear.x
          (planar_twist 1 1 : twist_msg ℝ).angular.z)
          ((sample_rover : wheel_parameters ℝ).wheel_positions 0)) = Real.sqrt 2 ∧
      msg.steer 0 = Real.pi / 4 ∧
      msg.speed 0 = Real.sqrt 2 ∧
      ¬ center_inside_wheel (turnCenter (planar_twist 1 1 : twist_msg ℝ).linear.x
          (planar_twist 1 1 : twist_msg ℝ).angular.z)
          ((sample_rover : wheel_parameters ℝ).wheel_positions 0).y :=
  ⟨rfl, rfl, by decide, by simp [sample_rover],
    C8_arc_example sample_rover (wheel_state_const 9) (planar_twist 1 1) 11 0 rfl rfl
      (by decide) (by simp [sample_rover])⟩

theorem wheel_speed_eq {F : Type} [LinearOrderedField F] (lm : libm F) (v w : F)
    (p : wheel_position F) :
    wheel_speed lm v w p
      = if strictly_between_zero_and (turnCenter v w) p.y then -arc_resigned_speed lm v w p
        else arc_resigned_speed lm v w p := by
  unfold wheel_speed arc_resigned_speed strictly_between_zero_and
  simp only [center_inside_wheel_iff, mul_neg, mul_one]

/-- C9 (direction reversal rule): in arc motion (`angular.z ≠ 0`), for every wheel at
`(x, y)` the published speed is the negation of the re-signed speed when `turnCenter`
lies strictly between `0` and `y`, and the re-signed speed unchanged otherwise; for a
non-zero re-signed speed, the published speed is its negation if and only if
`turnCenter` lies strictly between `0` and `y`. For `linear.x = angular.z = 1`
(`turnCenter = 1`) a wheel at `(1/2, 2)` gets the flipped sign. -/
theorem C9_direction_reversal {F : Type} [LinearOrderedField F] (lm : libm F)
    (cfg : wheel_parameters F) (s : wheel_task_state F) (cmd : twist_msg F) (tick wheel : ℕ)
    (hw : cmd.angular.z ≠ 0) (hwheel : wheel < cfg.wheel_count) :
    (∃ msg : wheel_msg F,
      (wheel_ackermann_task_cycle lm cfg s (some cmd) tick).1.xWheelQueue = some msg ∧
      (strictly_between_zero_and (turnCenter cmd.linear.x cmd.angular.z)
          (cfg.wheel_positions wheel).y →
        msg.speed wheel
          = -arc_resigned_speed lm cmd.linear.x cmd.angular.z (cfg.wheel_positions wheel)) ∧
      (¬ strictly_between_zero_and (turnCenter cmd.linear.x cmd.angular.z)
          (cfg.wheel_positions wheel).y →
        msg.speed wheel
          = arc_resigned_speed lm cmd.linear.x cmd.angular.z (cfg.wheel_positions wheel)) ∧
      (arc_resigned_speed lm cmd.linear.x cmd.angular.z (cfg.wheel_positions wheel) ≠ 0 →
        (msg.speed wheel
            = -arc_resigned_speed lm cmd.linear.x cmd.angular.z (cfg.wheel_positions wheel)
          ↔ strictly_between_zero_and (turnCenter cmd.linear.x cmd.angular.z)
              (cfg.wheel_positions wheel).y))) ∧
    (turnCenter (1 : F) 1 = 1 ∧
      wheel_speed lm 1 1 { x := 1 / 2, y := 2 }
        = -arc_resigned_speed lm 1 1 { x := 1 / 2, y := 2 }) := by
  obtain ⟨-, hsp⟩ := solve_arc lm cfg cmd s.wheelData tick wheel hw hwheel
  rw [wheel_speed_eq] at hsp
  refine ⟨⟨_, rfl, ?_, ?_, ?_⟩, ?_, ?_⟩
  · intro hb
    show (solve lm cfg cmd s.wheelData tick).speed wheel = _
    rw [hsp, if_pos hb]
  · intro hb
    show (solve lm cfg cmd s.wheelData tick).speed wheel = _
    rw [hsp, if_neg hb]
  · intro hr
    show (solve lm cfg cmd s.wheelData tick).speed wheel = _ ↔ _
    constructor
    · intro h
      by_contra hb
      rw [hsp, if_neg hb] at h
      exact hr (by linarith)
    · intro hb
      rw [hsp, if_pos hb]
  · simp [turnCenter]
  · rw [wheel_speed_eq, if_pos]
    have h1 : turnCenter (1 : F) 1 = 1 := by simp [turnCenter]
    rw [h1]
    exact Or.inl ⟨zero_lt_one, one_lt_two⟩

/-- Witness of C9: wheel 1 of the sample rover, at `(1/2, 2)`, for
`linear.x = angular.z = 1`: the turn centre `1` lies strictly between `0` and `2`, and
the published speed is `-(sqrt 5 / 2)`, the negation of the re-signed `sqrt 5 / 2`. -/
theorem C9_direction_reversal_witness :
    (planar_twist 1 1 : twist_msg ℝ).angular.z ≠ 0 ∧
    1 < (sample_rover : wheel_parameters ℝ).wheel_count ∧
    strictly_between_zero_and (turnCenter (1 : ℝ) 1)
      ((sample_rover : wheel_parameters ℝ).wheel_positions 1).y ∧
    arc_resigned_speed real_libm 1 1 ((sample_rover : wheel_parameters ℝ).wheel_positions 1)
      = Real.sqrt 5 / 2 ∧
    ∃ msg : wheel_msg ℝ,
      (wheel_ackermann_task_cycle real_libm sample_rover (wheel_state_const 9)
        (some (planar_twist 1 1)) 11).1.xWheelQueue = some msg ∧
      msg.speed 1 = -(Real.sqrt 5 / 2) := by
  have hz : (planar_twist 1 1 : twist_msg ℝ).angular.z ≠ 0 := by norm_num [planar_twist]
  have hpos : (sample_rover : wheel_parameters ℝ).wheel_positions 1 = { x := 1 / 2, y := 2 } := by
    simp [sample_rover]
  have htc : turnCenter (1 : ℝ) 1 = 1 := by simp [turnCenter]
  have hb : strictly_between_zero_and (turnCenter (1 : ℝ) 1)
      ((sample_rover : wheel_parameters ℝ).wheel_positions 1).y := by
    rw [htc, hpos]; exact Or.inl ⟨zero_lt_one, one_lt_two⟩
  have hr : arc_resigned_speed real_libm 1 1
      ((sample_rover : wheel_parameters ℝ).wheel_positions 1) = Real.sqrt 5 / 2 := by
    rw [hpos, arc_resigned_speed, htc, resigned_speed, if_pos one_ne_zero, copysign,
      if_pos zero_le_one, one_mul]
    have h54 : hypotenuse real_libm (opposite ({ x := 1 / 2, y := 2 } : wheel_position ℝ))
        (adjacent 1 { x := 1 / 2, y := 2 }) = Real.sqrt 5 / 2 := by
      simp only [hypotenuse, opposite, adjacent, real_libm]
      have : ((1 : ℝ) / 2) ^ 2 + (1 - 2) ^ 2 = 5 / 2 ^ 2 := by norm_num
      rw [this, Real.sqrt_div (by norm_num), Real.sqrt_sq (by norm_num)]
    rw [h54]
    exact abs_of_nonneg (div_nonneg (Real.sqrt_nonneg 5) (by norm_num))
  obtain ⟨⟨msg, hq, hflip, -, -⟩, -⟩ :=
    C9_direction_reversal real_libm sample_rover (wheel_state_const 9) (planar_twist 1 1)
      11 1 hz (by decide)
  refine ⟨hz, by decide, hb, hr, msg, hq, ?_⟩
  have := hflip hb
  simp only [planar_twist] at this
  rw [this, hr]

/-! ## Command timeout -/

theorem cycle_timeoutNotify {F : Type} [LinearOrderedField F] (lm : libm F)
    (cfg : wheel_parameters F) (s : wheel_task_state F) (received : Option (twist_msg F))
    (tick : ℕ) :
    (wheel_ackermann_task_cycle lm cfg s received tick).1.timeoutNotify = received.isSome := by
  cases received with
  | some cmd => rfl
  | none =>
    unfold wheel_ackermann_task_cycle
    by_cases h : s.timeoutNotify = true
    · simp [h]
    · simp only [h, if_false, Option.isSome_none]
      simpa using h

theorem is_timeout_lt {F : Type} (inputs : List (Option (twist_msg F) × ℕ)) (k : ℕ)
    (h : is_timeout inputs k = true) : k < inputs.length := by
  by_contra hk
  have : inputs[k]? = none := List.getElem?_eq_none (by omega)
  simp [is_timeout, this] at h

theorem timeout_or_command {F : Type} (inputs : List (Option (twist_msg F) × ℕ)) (j : ℕ)
    (hj : j < inputs.length) : is_timeout inputs j = true ∨ is_command inputs j = true := by
  unfold is_timeout is_command
  rw [List.getElem?_eq_getElem hj]
  rcases inputs[j] with ⟨_ | cmd, t⟩ <;> simp

theorem not_timeout_and_command {F : Type} (inputs : List (Option (twist_msg F) × ℕ)) (j : ℕ)
    (h1 : is_timeout inputs j = true) (h2 : is_command inputs j = true) : False := by
  unfold is_timeout at h1
  unfold is_command at h2
  rcases h : inputs[j]? with _ | ⟨_ | cmd, t⟩ <;> simp [h] at h1 h2

theorem run_logs_timeout {F : Type} [LinearOrderedField F] (lm : libm F)
    (cfg : wheel_parameters F) :
    ∀ (inputs : List (Option (twist_msg F) × ℕ)) (s : wheel_task_state F) (k : ℕ),
      is_timeout inputs k = true →
      (wheel_ackermann_task_run lm cfg s inputs).2[k]?
        = some (if (if k = 0 then s.timeoutNotify else is_command inputs (k - 1)) = true
                then [log_line.timeout_error] else []) := by
  intro inputs
  induction inputs with
  | nil => intro s k h; simp [is_timeout] at h
  | cons head rest ih =>
    intro s k h
    obtain ⟨received, tick⟩ := head
    cases k with
    | zero =>
      have hr : received = none := by
        cases received with
        | none => rfl
        | some cmd => simp [is_timeout] at h
      subst hr
      simp only [wheel_ackermann_task_run, List.getElem?_cons_zero, if_true, wheel_ackermann_task_cycle]
      by_cases hn : s.timeoutNotify = true <;> simp [hn]
    | succ k =>
      have h' : is_timeout rest k = true := by simpa [is_timeout] using h
      simp only [wheel_ackermann_task_run, List.getElem?_cons_succ]
      rw [ih _ k h', cycle_timeoutNotify]
      cases k with
      | zero => cases received <;> simp [is_command]
      | succ k => simp [is_command]

theorem first_timeout_iff {F : Type} (inputs : List (Option (twist_msg F) × ℕ)) (k : ℕ)
    (hk : is_timeout inputs k = true) :
    first_timeout_of_episode inputs k ↔ (k = 0 ∨ is_command inputs (k - 1) = true) := by
  have hlt := is_timeout_lt inputs k hk
  constructor
  · intro h
    by_cases h0 : k = 0
    · exact Or.inl h0
    · right
      rcases timeout_or_command inputs (k - 1) (by omega) with ht | hc
      · obtain ⟨m, hm1, hm2, -⟩ := h (k - 1) (by omega) ht
        omega
      · exact hc
  · rintro (h0 | hc) j hj ht
    · omega
    · refine ⟨k - 1, by omega, ?_, hc⟩
      have hne : j ≠ k - 1 := by
        intro he; subst he
        exact not_timeout_and_command inputs _ ht hc
      omega

/-- C10 (command timeout): a timeout step leaves the content of the wheel channel
unchanged and a step that receives a command logs no timeout diagnostic; over any input
sequence run from the start of the task, a timeout step `k` logs the timeout diagnostic,
once, exactly when it is the first timeout since the start or since the most recent
received command, and logs nothing otherwise. -/
theorem C10_command_timeout {F : Type} [LinearOrderedField F] (lm : libm F)
    (cfg : wheel_parameters F) (wheelData : wheel_msg F) (tick0 : ℕ)
    (queue : Option (wheel_msg F)) (inputs : List (Option (twist_msg F) × ℕ)) (k : ℕ)
    (hk : is_timeout inputs k = true) :
    (∀ (s : wheel_task_state F) (tick : ℕ),
      (wheel_ackermann_task_cycle lm cfg s none tick).1.xWheelQueue = s.xWheelQueue) ∧
    (∀ (s : wheel_task_state F) (cmd : twist_msg F) (tick : ℕ),
      log_line.timeout_error ∉ (wheel_ackermann_task_cycle lm cfg s (some cmd) tick).2) ∧
    (wheel_ackermann_task_run lm cfg (wheel_ackermann_task_start cfg wheelData tick0 queue) inputs).2[k]?
      = some (if first_timeout_of_episode inputs k then [log_line.timeout_error] else []) := by
  refine ⟨?_, ?_, ?_⟩
  · intro s tick
    unfold wheel_ackermann_task_cycle
    by_cases hn : s.timeoutNotify = true <;> simp [hn]
  · intro s cmd tick
    simp only [wheel_ackermann_task_cycle, unsupported_axes_log]
    split_ifs <;> simp
  · rw [run_logs_timeout lm cfg inputs _ k hk]
    congr 1
    have hiff := first_timeout_iff inputs k hk
    by_cases h0 : k = 0
    · subst h0
      have : first_timeout_of_episode inputs 0 := hiff.mpr (Or.inl rfl)
      rw [if_pos this]
      simp [wheel_ackermann_task_start]
    · simp only [h0, if_false]
      by_cases hc : is_command inputs (k - 1) = true
      · rw [if_pos hc, if_pos (hiff.mpr (Or.inr hc))]
      · have : ¬ first_timeout_of_episode inputs k := by
          intro hf
          rcases hiff.mp hf with h | h
          · exact h0 h
          · exact hc h
        rw [if_neg hc, if_neg this]

/-- Witness of C10: two timeouts, a command, then two more timeouts; iteration 3 is the
first timeout after the command and logs the diagnostic. -/
theorem C10_command_timeout_witness :
    is_timeout [(none, 1), (none, 2), (some (planar_twist (1 : ℝ) 0), 3), (none, 4), (none, 5)] 3
      = true ∧
    first_timeout_of_episode
      [(none, 1), (none, 2), (some (planar_twist (1 : ℝ) 0), 3), (none, 4), (none, 5)] 3 ∧
    (∀ (s : wheel_task_state ℝ) (tick : ℕ),
      (wheel_ackermann_task_cycle real_libm sample_rover s none tick).1.xWheelQueue
        = s.xWheelQueue) ∧
    (∀ (s : wheel_task_state ℝ) (cmd : twist_msg ℝ) (tick : ℕ),
      log_line.timeout_error ∉ (wheel_ackermann_task_cycle real_libm sample_rover s (some cmd) tick).2) ∧
    (wheel_ackermann_task_run real_libm sample_rover
        (wheel_ackermann_task_start sample_rover (wheel_state_const 9).wheelData 0 none)
        [(none, 1), (none, 2), (some (planar_twist (1 : ℝ) 0), 3), (none, 4), (none, 5)]).2[3]?
      = some (if first_timeout_of_episode
          [(none, 1), (none, 2), (some (planar_twist (1 : ℝ) 0), 3), (none, 4), (none, 5)] 3
        then [log_line.timeout_error] else []) :=
  ⟨rfl, by decide,
    C10_command_timeout real_libm sample_rover (wheel_state_const 9).wheelData 0 none
      [(none, 1), (none, 2), (some (planar_twist (1 : ℝ) 0), 3), (none, 4), (none, 5)] 3 rfl⟩

/-! ## Further lemmas on the solver -/

theorem solve_steer_lt {F : Type} [LinearOrderedField F] (lm : libm F)
    (cfg : wheel_parameters F) (cmd : twist_msg F) (m : wheel_msg F) (tick j : ℕ)
    (hj : j < cfg.WHEEL_MSG_DATA_COUNT) :
    (solve lm cfg cmd m tick).steer j
      = if 0 = cmd.angular.z then 0
        else if j < cfg.wheel_count
          then wheel_steer lm cmd.linear.x cmd.angular.z (cfg.wheel_positions j)
          else 0 := by
  by_cases hz : 0 = cmd.angular.z
  · simp [solve, hz, straight_loop_eq, wheel_msg_reset_eq, hj]
  · simp [solve, hz, arc_loop_eq, wheel_msg_reset_eq, hj]

theorem solve_speed_lt {F : Type} [LinearOrderedField F] (lm : libm F)
    (cfg : wheel_parameters F) (cmd : twist_msg F) (m : wheel_msg F) (tick j : ℕ)
    (hj : j < cfg.WHEEL_MSG_DATA_COUNT) :
    (solve lm cfg cmd m tick).speed j
      = if 0 = cmd.angular.z then (if j < cfg.wheel_count then cmd.linear.x else 0)
        else if j < cfg.wheel_count
          then wheel_speed lm cmd.linear.x cmd.angular.z (cfg.wheel_positions j)
          else 0 := by
  by_cases hz : 0 = cmd.angular.z
  · simp [solve, hz, straight_loop_eq, wheel_msg_reset_eq, hj]
  · simp [solve, hz, arc_loop_eq, wheel_msg_reset_eq, hj]

theorem clamp_duration_zero (c : rc_calibration) :
    clamp_duration c 0 = c.rc_receive_min := by
  unfold clamp_duration; split_ifs <;> omega

/-! ## Claims C11 to C20 -/

/-- C11 (neutral round trip): for every wheel message `m`, the solve of a command with
`linear.x = 0` and `angular.z = 0` applied to `wheel_msg_reset m` gives, at every index of
the message arrays, the steer and speed of `wheel_msg_reset m` itself, which are zero;
when the wheels fit the arrays the steer and speed arrays are identical as a whole. -/
theorem C11_neutral_round_trip {F : Type} [LinearOrderedField F] (lm : libm F)
    (cfg : wheel_parameters F) (m : wheel_msg F) (cmd : twist_msg F) (tick j : ℕ)
    (hx : cmd.linear.x = 0) (hz : cmd.angular.z = 0) (hj : j < cfg.WHEEL_MSG_DATA_COUNT) :
    (solve lm cfg cmd (wheel_msg_reset cfg.WHEEL_MSG_DATA_COUNT m) tick).steer j
      = (wheel_msg_reset cfg.WHEEL_MSG_DATA_COUNT m).steer j ∧
    (solve lm cfg cmd (wheel_msg_reset cfg.WHEEL_MSG_DATA_COUNT m) tick).speed j
      = (wheel_msg_reset cfg.WHEEL_MSG_DATA_COUNT m).speed j ∧
    (wheel_msg_reset cfg.WHEEL_MSG_DATA_COUNT m).steer j = 0 ∧
    (wheel_msg_reset cfg.WHEEL_MSG_DATA_COUNT m).speed j = 0 ∧
    (cfg.wheel_count ≤ cfg.WHEEL_MSG_DATA_COUNT →
      (solve lm cfg cmd (wheel_msg_reset cfg.WHEEL_MSG_DATA_COUNT m) tick).steer
        = (wheel_msg_reset cfg.WHEEL_MSG_DATA_COUNT m).steer ∧
      (solve lm cfg cmd (wheel_msg_reset cfg.WHEEL_MSG_DATA_COUNT m) tick).speed
        = (wheel_msg_reset cfg.WHEEL_MSG_DATA_COUNT m).speed) := by
  have hr1 : (wheel_msg_reset cfg.WHEEL_MSG_DATA_COUNT m).steer j = 0 := by
    simp [wheel_msg_reset_eq, hj]
  have hr2 : (wheel_msg_reset cfg.WHEEL_MSG_DATA_COUNT m).speed j = 0 := by
    simp [wheel_msg_reset_eq, hj]
  refine ⟨?_, ?_, hr1, hr2, ?_⟩
  · rw [solve_steer_lt lm cfg cmd _ tick j hj, hr1]; simp [hz]
  · rw [solve_speed_lt lm cfg cmd _ tick j hj, hr2]; simp [hz, hx]
  · intro hcount
    constructor
    · funext i
      by_cases hi : i < cfg.WHEEL_MSG_DATA_COUNT <;>
        simp [solve, hz, straight_loop_eq, wheel_msg_reset_eq, hi]
    · funext i
      simp only [solve, hz, if_true, straight_loop_eq, wheel_msg_reset_eq, hx]
      by_cases hi : i < cfg.wheel_count
      · have : i < cfg.WHEEL_MSG_DATA_COUNT := lt_of_lt_of_le hi hcount
        simp [hi, this]
      · by_cases hi2 : i < cfg.WHEEL_MSG_DATA_COUNT <;> simp [hi, hi2]

/-- Witness of C11: the sample rover, a message holding 9 everywhere, index 4 of the
arrays. -/
theorem C11_neutral_round_trip_witness :
    (planar_twist 0 0 : twist_msg ℝ).linear.x = 0 ∧
    (planar_twist 0 0 : twist_msg ℝ).angular.z = 0 ∧
    4 < (sample_rover : wheel_parameters ℝ).WHEEL_MSG_DATA_COUNT ∧
    (solve real_libm sample_rover (planar_twist 0 0)
        (wheel_msg_reset 6 (wheel_state_const (9 : ℝ)).wheelData) 11).speed 4
      = (wheel_msg_reset 6 (wheel_state_const (9 : ℝ)).wheelData).speed 4 ∧
    (wheel_msg_reset 6 (wheel_state_const (9 : ℝ)).wheelData).speed 4 = 0 :=
  ⟨rfl, rfl, by decide,
    (C11_neutral_round_trip real_libm sample_rover (wheel_state_const (9 : ℝ)).wheelData
      (planar_twist 0 0) 11 4 rfl rfl (by decide)).2.1,
    (C11_neutral_round_trip real_libm sample_rover (wheel_state_const (9 : ℝ)).wheelData
      (planar_twist 0 0) 11 4 rfl rfl (by decide)).2.2.2.1⟩

/-- C15 (out-of-plane components and history have no influence): for any two velocity
commands that agree on `linear.x` and `angular.z`, any two previous task states and any
two tick counts, one solver cycle publishes the same steer and speed at every index of
the message arrays, hence for every wheel. -/
theorem C15_only_planar_components {F : Type} [LinearOrderedField F] (lm : libm F)
    (cfg : wheel_parameters F) (s1 s2 : wheel_task_state F) (cmd1 cmd2 : twist_msg F)
    (tick1 tick2 j : ℕ) (hx : cmd1.linear.x = cmd2.linear.x)
    (hz : cmd1.angular.z = cmd2.angular.z) (hj : j < cfg.WHEEL_MSG_DATA_COUNT) :
    ∃ msg1 msg2 : wheel_msg F,
      (wheel_ackermann_task_cycle lm cfg s1 (some cmd1) tick1).1.xWheelQueue = some msg1 ∧
      (wheel_ackermann_task_cycle lm cfg s2 (some cmd2) tick2).1.xWheelQueue = some msg2 ∧
      msg1.steer j = msg2.steer j ∧ msg1.speed j = msg2.speed j := by
  refine ⟨_, _, rfl, rfl, ?_, ?_⟩
  · rw [solve_steer_lt lm cfg cmd1 _ tick1 j hj, solve_steer_lt lm cfg cmd2 _ tick2 j hj,
      hx, hz]
  · rw [solve_speed_lt lm cfg cmd1 _ tick1 j hj, solve_speed_lt lm cfg cmd2 _ tick2 j hj,
      hx, hz]

/-- Witness of C15: the sample rover, a planar command and one with all out-of-plane
components set, over different previous states. -/
theorem C15_only_planar_components_witness :
    (planar_twist 1 1 : twist_msg ℝ).linear.x
      = ({ linear := { x := 1, y := 5, z := 6 },
           angular := { x := 7, y := 8, z := 1 } } : twist_msg ℝ).linear.x ∧
    (planar_twist 1 1 : twist_msg ℝ).angular.z
      = ({ linear := { x := 1, y := 5, z := 6 },
           angular := { x := 7, y := 8, z := 1 } } : twist_msg ℝ).angular.z ∧
    1 < (sample_rover : wheel_parameters ℝ).WHEEL_MSG_DATA_COUNT ∧
    ∃ msg1 msg2 : wheel_msg ℝ,
      (wheel_ackermann_task_cycle real_libm sample_rover (wheel_state_const 9)
        (some (planar_twist 1 1)) 11).1.xWheelQueue = some msg1 ∧
      (wheel_ackermann_task_cycle real_libm sample_rover (wheel_state_const 3)
        (some { linear := { x := 1, y := 5, z := 6 },
                angular := { x := 7, y := 8, z := 1 } }) 12).1.xWheelQueue = some msg2 ∧
      msg1.steer 1 = msg2.steer 1 ∧ msg1.speed 1 = msg2.speed 1 :=
  ⟨rfl, rfl, by decide,
    C15_only_planar_components real_libm sample_rover (wheel_state_const 9)
      (wheel_state_const 3) (planar_twist 1 1)
      { linear := { x := 1, y := 5, z := 6 }, angular := { x := 7, y := 8, z := 1 } }
      11 12 1 rfl rfl (by decide)⟩

/-- C16 (high-phase selection): for every capture, the axis value is the clamped linear
map of the width read from the last entry alone: the entries before it have no effect,
and the width is `duration0` when `level0` is non-zero, otherwise `duration1` when
`level1` is non-zero. -/
theorem C16_high_phase_selection {F : Type} [LinearOrderedField F] (c : rc_calibration)
    (capture : rmt_capture) (earlier1 earlier2 : List rmt_item32_t) (recent : rmt_item32_t) :
    (read_axis c (some capture) : F)
      = axis_value c
          (clamp_duration c (high_duration (capture.items.getLast capture.nonempty))) ∧
    (read_axis c (some (capture_ending earlier1 recent)) : F)
      = axis_value c (clamp_duration c (high_duration recent)) ∧
    (read_axis c (some (capture_ending earlier1 recent)) : F)
      = read_axis c (some (capture_ending earlier2 recent)) ∧
    (recent.level0 ≠ 0 → high_duration recent = recent.duration0) ∧
    (recent.level0 = 0 → recent.level1 ≠ 0 → high_duration recent = recent.duration1) := by
  have hlast : ∀ earlier : List rmt_item32_t,
      (capture_ending earlier recent).items.getLast (capture_ending earlier recent).nonempty
        = recent := by
    intro earlier
    simp [capture_ending]
  refine ⟨rfl, ?_, ?_, ?_, ?_⟩
  · simp only [read_axis, decode_duration, hlast]
  · simp only [read_axis, hlast]
  · intro h0
    simp [high_duration, h0]
  · intro h0 h1
    simp [high_duration, h0, h1]

/-- Witness of C16: an entry whose second phase is the high one, after two different
histories. -/
theorem C16_high_phase_selection_witness :
    ({ duration0 := 300, level0 := 0, duration1 := 1700, level1 := 1 } : rmt_item32_t).level0 = 0 ∧
    ({ duration0 := 300, level0 := 0, duration1 := 1700, level1 := 1 } : rmt_item32_t).level1 ≠ 0 ∧
    high_duration { duration0 := 300, level0 := 0, duration1 := 1700, level1 := 1 } = 1700 ∧
    (read_axis hobby_calibration
        (some (capture_ending [{ duration0 := 1100, level0 := 1, duration1 := 9, level1 := 0 }]
          { duration0 := 300, level0 := 0, duration1 := 1700, level1 := 1 })) : ℚ)
      = read_axis hobby_calibration
          (some (capture_ending [] { duration0 := 300, level0 := 0, duration1 := 1700, level1 := 1 })) :=
  ⟨rfl, by decide,
    (C16_high_phase_selection (F := ℚ) hobby_calibration (pulse_capture 0) [] []
      { duration0 := 300, level0 := 0, duration1 := 1700, level1 := 1 }).2.2.2.2 rfl
      (by decide),
    (C16_high_phase_selection (F := ℚ) hobby_calibration (pulse_capture 0)
      [{ duration0 := 1100, level0 := 1, duration1 := 9, level1 := 0 }] []
      { duration0 := 300, level0 := 0, duration1 := 1700, level1 := 1 }).2.2.1⟩

/-- C17 (`wheel_msg_reset`): it sets `steer[i] = 0` and `speed[i] = 0` at every index
`i < WHEEL_MSG_DATA_COUNT`, leaves `timeStamp` unchanged, and resetting twice equals
resetting once. -/
theorem C17_wheel_msg_reset {F : Type} [LinearOrderedField F] (n : ℕ) (m : wheel_msg F)
    (i : ℕ) (hi : i < n) :
    (wheel_msg_reset n m).steer i = 0 ∧
    (wheel_msg_reset n m).speed i = 0 ∧
    (wheel_msg_reset n m).timeStamp = m.timeStamp ∧
    wheel_msg_reset n (wheel_msg_reset n m) = wheel_msg_reset n m := by
  refine ⟨by simp [wheel_msg_reset_eq, hi], by simp [wheel_msg_reset_eq, hi],
    by simp [wheel_msg_reset_eq], ?_⟩
  rw [wheel_msg_reset_eq n (wheel_msg_reset n m), wheel_msg_reset_eq n m]
  congr 1 <;> funext k <;> by_cases hk : k < n <;> simp [hk]

/-- Witness of C17: arrays of length six, a message stamped 42 holding 9 everywhere. -/
theorem C17_wheel_msg_reset_witness :
    5 < 6 ∧
    (wheel_msg_reset 6 (wheel_msg_const 42 (9 : ℚ))).steer 5 = 0 ∧
    (wheel_msg_reset 6 (wheel_msg_const 42 (9 : ℚ))).speed 5 = 0 ∧
    (wheel_msg_reset 6 (wheel_msg_const 42 (9 : ℚ))).timeStamp
      = (wheel_msg_const 42 (9 : ℚ)).timeStamp ∧
    wheel_msg_reset 6 (wheel_msg_reset 6 (wheel_msg_const 42 (9 : ℚ)))
      = wheel_msg_reset 6 (wheel_msg_const 42 (9 : ℚ)) :=
  ⟨by decide, C17_wheel_msg_reset (F := ℚ) 6 (wheel_msg_const 42 9) 5 (by decide)⟩

/-- C18 (no high phase recorded): with `rc_receive_min < rc_receive_max` (durations are
unsigned, so `0 ≤ rc_receive_min`), a capture whose last entry has `level0 = 0` and
`level1 = 0` keeps the raw width `0`, which is clamped to `rc_receive_min`; the axis
decodes to exactly `-1`, not to the failsafe centre `0`. -/
theorem C18_no_high_phase {F : Type} [LinearOrderedField F] (c : rc_calibration)
    (_h : c.rc_receive_min < c.rc_receive_max) (capture : rmt_capture)
    (h0 : (capture.items.getLast capture.nonempty).level0 = 0)
    (h1 : (capture.items.getLast capture.nonempty).level1 = 0) :
    0 ≤ c.rc_receive_min ∧
    high_duration (capture.items.getLast capture.nonempty) = 0 ∧
    clamp_duration c (high_duration (capture.items.getLast capture.nonempty))
      = c.rc_receive_min ∧
    (read_axis c (some capture) : F) = -1 ∧
    (read_axis c (some capture) : F) ≠ read_axis c none := by
  have hd : high_duration (capture.items.getLast capture.nonempty) = 0 := by
    simp [high_duration, h0, h1]
  have hr : (read_axis c (some capture) : F) = -1 := by
    simp only [read_axis, decode_duration, hd, clamp_duration_zero, axis_value_min]
  refine ⟨Nat.zero_le _, hd, by rw [hd, clamp_duration_zero], hr, ?_⟩
  rw [hr]
  simp [read_axis]

/-- Witness of C18: the hobby calibration and an entry with both levels low. -/
theorem C18_no_high_phase_witness :
    hobby_calibration.rc_receive_min < hobby_calibration.rc_receive_max ∧
    (read_axis hobby_calibration
      (some (capture_ending [] { duration0 := 1500, level0 := 0, duration1 := 1500, level1 := 0 }))
      : ℚ) = -1 :=
  ⟨by decide,
    (C18_no_high_phase (F := ℚ) hobby_calibration (by decide)
      (capture_ending [] { duration0 := 1500, level0 := 0, duration1 := 1500, level1 := 0 })
      rfl rfl).2.2.2.1⟩

/-! ## Scaling and mirroring of the arc solution -/

theorem resigned_speed_of_pos {F : Type} [LinearOrderedField F] (v w hyp : F) (hw : w ≠ 0)
    (hh : 0 ≤ hyp) (ht : 0 < turnCenter v w) :
    resigned_speed v w (turnCenter v w) hyp = w * hyp := by
  have hv : v = turnCenter v w * w := by unfold turnCenter; field_simp
  rw [resigned_speed, if_pos ht.ne', copysign, abs_mul, abs_of_nonneg hh]
  rcases lt_or_gt_of_ne hw with hw1 | hw1
  · have : v < 0 := by rw [hv]; exact mul_neg_of_pos_of_neg ht hw1
    rw [if_neg (not_le.mpr this), abs_of_neg hw1]; ring
  · have : 0 < v := by rw [hv]; exact mul_pos ht hw1
    rw [if_pos this.le, abs_of_pos hw1]

theorem resigned_speed_of_neg {F : Type} [LinearOrderedField F] (v w hyp : F) (hw : w ≠ 0)
    (hh : 0 ≤ hyp) (ht : turnCenter v w < 0) :
    resigned_speed v w (turnCenter v w) hyp = -(w * hyp) := by
  have hv : v = turnCenter v w * w := by unfold turnCenter; field_simp
  rw [resigned_speed, if_pos ht.ne, copysign, abs_mul, abs_of_nonneg hh]
  rcases lt_or_gt_of_ne hw with hw1 | hw1
  · have : 0 < v := by rw [hv]; exact mul_pos_of_neg_of_neg ht hw1
    rw [if_pos this.le, abs_of_neg hw1]; ring
  · have : v < 0 := by rw [hv]; exact mul_neg_of_neg_of_pos ht hw1
    rw [if_neg (not_le.mpr this), abs_of_pos hw1]

theorem wheel_speed_of_adjacent {F : Type} [LinearOrderedField F] (lm : libm F) (v w : F)
    (p : wheel_position F) (hw : w ≠ 0) (ha : adjacent (turnCenter v w) p ≠ 0)
    (hv : v ≠ 0 ∨ p.y < 0)
    (hh : 0 ≤ hypotenuse lm (opposite p) (adjacent (turnCenter v w) p)) :
    wheel_speed lm v w p
      = if 0 < adjacent (turnCenter v w) p
        then w * hypotenuse lm (opposite p) (adjacent (turnCenter v w) p)
        else -(w * hypotenuse lm (opposite p) (adjacent (turnCenter v w) p)) := by
  rw [wheel_speed_eq]
  unfold arc_resigned_speed
  have hadj : adjacent (turnCenter v w) p = turnCenter v w - p.y := rfl
  rcases lt_trichotomy (turnCenter v w) 0 with ht | ht | ht
  · rw [resigned_speed_of_neg v w _ hw hh ht]
    by_cases hpos : 0 < adjacent (turnCenter v w) p
    · have hb : strictly_between_zero_and (turnCenter v w) p.y :=
        Or.inr ⟨by rw [hadj] at hpos; linarith, ht⟩
      rw [if_pos hb, if_pos hpos, neg_neg]
    · have hb : ¬ strictly_between_zero_and (turnCenter v w) p.y := by
        rintro (⟨h1, _⟩ | ⟨h1, _⟩)
        · exact lt_asymm ht h1
        · apply hpos; rw [hadj]; linarith
      rw [if_neg hb, if_neg hpos]
  · have hv0 : v = 0 := by
      have : v = turnCenter v w * w := by unfold turnCenter; field_simp
      rw [this, ht, zero_mul]
    have hy : p.y < 0 := by
      rcases hv with h | h
      · exact absurd hv0 h
      · exact h
    have hpos : 0 < adjacent (turnCenter v w) p := by rw [hadj, ht]; linarith
    have hb : ¬ strictly_between_zero_and (turnCenter v w) p.y := by
      rw [ht]
      rintro (⟨h1, _⟩ | ⟨_, h1⟩) <;> exact lt_irrefl _ h1
    rw [if_neg hb, if_pos hpos, resigned_speed, ht, if_neg (not_not.mpr rfl)]
  · rw [resigned_speed_of_pos v w _ hw hh ht]
    by_cases hpos : 0 < adjacent (turnCenter v w) p
    · have hb : ¬ strictly_between_zero_and (turnCenter v w) p.y := by
        rintro (⟨_, h1⟩ | ⟨_, h1⟩)
        · rw [hadj] at hpos; linarith
        · exact lt_asymm ht h1
      rw [if_neg hb, if_pos hpos]
    · have hneg : adjacent (turnCenter v w) p < 0 :=
        lt_of_le_of_ne (not_lt.mp hpos) ha
      have hb : strictly_between_zero_and (turnCenter v w) p.y :=
        Or.inl ⟨ht, by rw [hadj] at hneg; linarith⟩
      rw [if_pos hb, if_neg hpos]

theorem real_hypotenuse_nonneg (opp adj : ℝ) : 0 ≤ hypotenuse real_libm opp adj :=
  Real.sqrt_nonneg _

theorem real_steer_eq_arctan (opp adj : ℝ) (nz : Bool) (ha : adj ≠ 0) :
    steer_angle real_libm opp adj nz = Real.arctan (opp / adj) := by
  unfold steer_angle atan_quotient
  by_cases ho : opp = 0
  · simp [ho]
  · simp [ho, ha, real_libm]

theorem real_hypotenuse_factor (opp adj : ℝ) (ha : adj ≠ 0) :
    hypotenuse real_libm opp adj = |adj| * Real.sqrt (1 + (opp / adj) ^ 2) := by
  have h1 : opp ^ 2 + adj ^ 2 = adj ^ 2 * (1 + (opp / adj) ^ 2) := by
    field_simp; ring
  show Real.sqrt (opp ^ 2 + adj ^ 2) = _
  rw [h1, Real.sqrt_mul (sq_nonneg adj), Real.sqrt_sq_eq_abs]

theorem real_hypotenuse_cos (opp adj : ℝ) (nz : Bool) (ha : adj ≠ 0) :
    hypotenuse real_libm opp adj * Real.cos (steer_angle real_libm opp adj nz) = |adj| := by
  have hs : 0 < Real.sqrt (1 + (opp / adj) ^ 2) := Real.sqrt_pos.mpr (by positivity)
  rw [real_steer_eq_arctan opp adj nz ha, real_hypotenuse_factor opp adj ha, Real.cos_arctan]
  field_simp

theorem real_hypotenuse_sin (opp adj : ℝ) (nz : Bool) (ha : adj ≠ 0) :
    hypotenuse real_libm opp adj * Real.sin (steer_angle real_libm opp adj nz)
      = |adj| * (opp / adj) := by
  have hs : 0 < Real.sqrt (1 + (opp / adj) ^ 2) := Real.sqrt_pos.mpr (by positivity)
  rw [real_steer_eq_arctan opp adj nz ha, real_hypotenuse_factor opp adj ha, Real.sin_arctan]
  generalize Real.sqrt (1 + (opp / adj) ^ 2) = r at hs
  generalize opp / adj = q
  field_simp
  ring

/-- C13, as stated, fails: turning in place (`linear.x = 0`, `angular.z = 1`) with a wheel
at `(0, 1)`, `adjacent = -1` is not zero, the published command is `steer = 0`,
`speed = 1`, and `speed * cos(steer) = 1` is not `linear.x - angular.z * y = -1`. -/
theorem C13_rigid_body_counterexample :
    (planar_twist 0 1 : twist_msg ℝ).angular.z ≠ 0 ∧
    adjacent (turnCenter (0 : ℝ) 1) { x := 0, y := 1 } ≠ 0 ∧
    (wheel_ackermann_task_cycle real_libm (single_wheel_rover { x := 0, y := 1 })
        (wheel_state_const 9) (some (planar_twist 0 1)) 11).1.xWheelQueue
      = some (solve real_libm (single_wheel_rover { x := 0, y := 1 }) (planar_twist 0 1)
          (wheel_state_const (9 : ℝ)).wheelData 11) ∧
    (solve real_libm (single_wheel_rover { x := 0, y := 1 }) (planar_twist 0 1)
        (wheel_state_const (9 : ℝ)).wheelData 11).steer 0 = 0 ∧
    (solve real_libm (single_wheel_rover { x := 0, y := 1 }) (planar_twist 0 1)
        (wheel_state_const (9 : ℝ)).wheelData 11).speed 0 = 1 ∧
    (solve real_libm (single_wheel_rover { x := 0, y := 1 }) (planar_twist 0 1)
        (wheel_state_const (9 : ℝ)).wheelData 11).speed 0
      * Real.cos ((solve real_libm (single_wheel_rover { x := 0, y := 1 }) (planar_twist 0 1)
          (wheel_state_const (9 : ℝ)).wheelData 11).steer 0)
      ≠ (planar_twist 0 1 : twist_msg ℝ).linear.x
          - (planar_twist 0 1 : twist_msg ℝ).angular.z * 1 := by
  have hz : (planar_twist 0 1 : twist_msg ℝ).angular.z ≠ 0 := by norm_num [planar_twist]
  obtain ⟨hst, hsp⟩ := solve_arc real_libm (single_wheel_rover { x := 0, y := 1 })
    (planar_twist 0 1) (wheel_state_const (9 : ℝ)).wheelData 11 0 hz (by decide)
  have hadj : adjacent (turnCenter (0 : ℝ) 1) { x := 0, y := 1 } = -1 := by
    simp [adjacent, turnCenter]
  have hsteer : (solve real_libm (single_wheel_rover { x := 0, y := 1 }) (planar_twist 0 1)
      (wheel_state_const (9 : ℝ)).wheelData 11).steer 0 = 0 := by
    rw [hst]
    simp [wheel_steer, single_wheel_rover, steer_angle, opposite]
  have hspeed : (solve real_libm (single_wheel_rover { x := 0, y := 1 }) (planar_twist 0 1)
      (wheel_state_const (9 : ℝ)).wheelData 11).speed 0 = 1 := by
    rw [hsp]
    have htc : turnCenter (0 : ℝ) 1 = 0 := by simp [turnCenter]
    simp only [planar_twist, single_wheel_rover, wheel_speed, htc,
      if_neg (not_center_inside_zero _), resigned_speed, ne_eq, not_true_eq_false, if_false,
      hypotenuse, opposite, adjacent, real_libm]
    norm_num
  refine ⟨hz, by rw [hadj]; norm_num, rfl, hsteer, hspeed, ?_⟩
  rw [hsteer, hspeed, Real.cos_zero]
  norm_num [planar_twist]

/-- C13, amended: for every arc command (`angular.z = w ≠ 0`, `linear.x = v`) and every
wheel at `(x, y)` with `adjacent = v/w - y ≠ 0`, provided the command is not a turn in
place (`v ≠ 0`) or the wheel lies on the side `y < 0`, the published command matches
the motion of the body about the turn centre: `speed * cos(steer) = v - w*y` and
`speed * sin(steer) = w*x`. -/
theorem C13_rigid_body (cfg : wheel_parameters ℝ) (s : wheel_task_state ℝ)
    (cmd : twist_msg ℝ) (tick wheel : ℕ) (hw : cmd.angular.z ≠ 0)
    (hwheel : wheel < cfg.wheel_count)
    (ha : adjacent (turnCenter cmd.linear.x cmd.angular.z) (cfg.wheel_positions wheel) ≠ 0)
    (hv : cmd.linear.x ≠ 0 ∨ (cfg.wheel_positions wheel).y < 0) :
    ∃ msg : wheel_msg ℝ,
      (wheel_ackermann_task_cycle real_libm cfg s (some cmd) tick).1.xWheelQueue = some msg ∧
      msg.speed wheel * Real.cos (msg.steer wheel)
        = cmd.linear.x - cmd.angular.z * (cfg.wheel_positions wheel).y ∧
      msg.speed wheel * Real.sin (msg.steer wheel)
        = cmd.angular.z * (cfg.wheel_positions wheel).x := by
  obtain ⟨hst, hsp⟩ := solve_arc real_libm cfg cmd s.wheelData tick wheel hw hwheel
  rw [wheel_speed_of_adjacent real_libm _ _ _ hw ha hv (real_hypotenuse_nonneg _ _)] at hsp
  rw [wheel_steer] at hst
  have hcos := real_hypotenuse_cos (opposite (cfg.wheel_positions wheel)) _
    (adjacent_negative_zero (turnCenter_negative_zero cmd.linear.x cmd.angular.z)
      (cfg.wheel_positions wheel)) ha
  have hsin := real_hypotenuse_sin (opposite (cfg.wheel_positions wheel)) _
    (adjacent_negative_zero (turnCenter_negative_zero cmd.linear.x cmd.angular.z)
      (cfg.wheel_positions wheel)) ha
  have hrhs : cmd.linear.x - cmd.angular.z * (cfg.wheel_positions wheel).y
      = cmd.angular.z
          * adjacent (turnCenter cmd.linear.x cmd.angular.z) (cfg.wheel_positions wheel) := by
    unfold adjacent turnCenter
    field_simp
  refine ⟨_, rfl, ?_, ?_⟩
  · show (solve real_libm cfg cmd s.wheelData tick).speed wheel
      * Real.cos ((solve real_libm cfg cmd s.wheelData tick).steer wheel) = _
    rw [hst, hsp, hrhs]
    by_cases hpos : 0 < adjacent (turnCenter cmd.linear.x cmd.angular.z)
        (cfg.wheel_positions wheel)
    · rw [if_pos hpos, mul_assoc, hcos, abs_of_pos hpos]
    · have hneg := lt_of_le_of_ne (not_lt.mp hpos) ha
      rw [if_neg hpos, neg_mul, mul_assoc, hcos, abs_of_neg hneg]
      ring
  · show (solve real_libm cfg cmd s.wheelData tick).speed wheel
      * Real.sin ((solve real_libm cfg cmd s.wheelData tick).steer wheel) = _
    rw [hst, hsp]
    have hx : opposite (cfg.wheel_positions wheel) = (cfg.wheel_positions wheel).x := rfl
    by_cases hpos : 0 < adjacent (turnCenter cmd.linear.x cmd.angular.z)
        (cfg.wheel_positions wheel)
    · rw [if_pos hpos, mul_assoc, hsin, abs_of_pos hpos, hx]
      field_simp
    · have hneg := lt_of_le_of_ne (not_lt.mp hpos) ha
      rw [if_neg hpos, neg_mul, mul_assoc, hsin, abs_of_neg hneg, hx]
      field_simp
      ring

/-- Witness of the amended C13: the sample rover on the arc `(1, 1)`, wheel 1 at
`(1/2, 2)`, whose `adjacent` is `-1`. -/
theorem C13_rigid_body_witness :
    (planar_twist 1 1 : twist_msg ℝ).angular.z ≠ 0 ∧
    1 < (sample_rover : wheel_parameters ℝ).wheel_count ∧
    adjacent (turnCenter (planar_twist 1 1 : twist_msg ℝ).linear.x
        (planar_twist 1 1 : twist_msg ℝ).angular.z)
      ((sample_rover : wheel_parameters ℝ).wheel_positions 1) ≠ 0 ∧
    (planar_twist 1 1 : twist_msg ℝ).linear.x ≠ 0 ∧
    ∃ msg : wheel_msg ℝ,
      (wheel_ackermann_task_cycle real_libm sample_rover (wheel_state_const 9)
        (some (planar_twist 1 1)) 11).1.xWheelQueue = some msg ∧
      msg.speed 1 * Real.cos (msg.steer 1)
        = (planar_twist 1 1 : twist_msg ℝ).linear.x
          - (planar_twist 1 1 : twist_msg ℝ).angular.z
            * ((sample_rover : wheel_parameters ℝ).wheel_positions 1).y ∧
      msg.speed 1 * Real.sin (msg.steer 1)
        = (planar_twist 1 1 : twist_msg ℝ).angular.z
          * ((sample_rover : wheel_parameters ℝ).wheel_positions 1).x := by
  have hz : (planar_twist 1 1 : twist_msg ℝ).angular.z ≠ 0 := by norm_num [planar_twist]
  have hx : (planar_twist 1 1 : twist_msg ℝ).linear.x ≠ 0 := by norm_num [planar_twist]
  have ha : adjacent (turnCenter (planar_twist 1 1 : twist_msg ℝ).linear.x
      (planar_twist 1 1 : twist_msg ℝ).angular.z)
      ((sample_rover : wheel_parameters ℝ).wheel_positions 1) ≠ 0 := by
    norm_num [planar_twist, sample_rover, adjacent, turnCenter]
  exact ⟨hz, by decide, ha, hx,
    C13_rigid_body sample_rover (wheel_state_const 9) (planar_twist 1 1) 11 1 hz (by decide)
      ha (Or.inl hx)⟩

/-- C14 (sign restoration): in arc motion with `turnCenter ≠ 0`, for every wheel whose
speed is not reversed, the published speed has magnitude `|angular.z| * hypotenuse` and
the sign of `linear.x`, which is not zero: non-negative for a forward command,
non-positive for a backward one, whatever the sign of `angular.z`. -/
theorem C14_sign_restoration (cfg : wheel_parameters ℝ) (s : wheel_task_state ℝ)
    (cmd : twist_msg ℝ) (tick wheel : ℕ) (hw : cmd.angular.z ≠ 0)
    (htc : turnCenter cmd.linear.x cmd.angular.z ≠ 0) (hwheel : wheel < cfg.wheel_count)
    (hno : ¬ center_inside_wheel (turnCenter cmd.linear.x cmd.angular.z)
      (cfg.wheel_positions wheel).y) :
    ∃ msg : wheel_msg ℝ,
      (wheel_ackermann_task_cycle real_libm cfg s (some cmd) tick).1.xWheelQueue = some msg ∧
      |msg.speed wheel|
        = |cmd.angular.z|
          * hypotenuse real_libm (opposite (cfg.wheel_positions wheel))
              (adjacent (turnCenter cmd.linear.x cmd.angular.z) (cfg.wheel_positions wheel)) ∧
      cmd.linear.x ≠ 0 ∧
      (0 < cmd.linear.x → 0 ≤ msg.speed wheel) ∧
      (cmd.linear.x < 0 → msg.speed wheel ≤ 0) := by
  obtain ⟨-, hsp⟩ := solve_arc real_libm cfg cmd s.wheelData tick wheel hw hwheel
  have hv : cmd.linear.x ≠ 0 := by
    intro h0
    apply htc
    simp [turnCenter, h0]
  have hh := real_hypotenuse_nonneg (opposite (cfg.wheel_positions wheel))
    (adjacent (turnCenter cmd.linear.x cmd.angular.z) (cfg.wheel_positions wheel))
  have hsp2 : (solve real_libm cfg cmd s.wheelData tick).speed wheel
      = copysign (cmd.angular.z
          * hypotenuse real_libm (opposite (cfg.wheel_positions wheel))
              (adjacent (turnCenter cmd.linear.x cmd.angular.z) (cfg.wheel_positions wheel)))
          cmd.linear.x := by
    rw [hsp]
    simp only [wheel_speed, if_neg hno, resigned_speed, ne_eq, htc, not_false_eq_true, if_true]
  refine ⟨_, rfl, ?_, hv, ?_, ?_⟩
  · show |(solve real_libm cfg cmd s.wheelData tick).speed wheel| = _
    rw [hsp2, copysign]
    split_ifs
    · rw [abs_abs, abs_mul, abs_of_nonneg hh]
    · rw [abs_neg, abs_abs, abs_mul, abs_of_nonneg hh]
  · intro hpos
    show 0 ≤ (solve real_libm cfg cmd s.wheelData tick).speed wheel
    rw [hsp2, copysign, if_pos hpos.le]
    exact abs_nonneg _
  · intro hneg
    show (solve real_libm cfg cmd s.wheelData tick).speed wheel ≤ 0
    rw [hsp2, copysign, if_neg (not_le.mpr hneg)]
    exact neg_nonpos.mpr (abs_nonneg _)

/-- Witness of C14: the sample rover backing up on the arc `(-1, 2)`, wheel 0 at
`(1, 0)`: the turn centre `-1/2` is not inside the wheel. -/
theorem C14_sign_restoration_witness :
    (planar_twist (-1) 2 : twist_msg ℝ).angular.z ≠ 0 ∧
    turnCenter (planar_twist (-1) 2 : twist_msg ℝ).linear.x
      (planar_twist (-1) 2 : twist_msg ℝ).angular.z ≠ 0 ∧
    0 < (sample_rover : wheel_parameters ℝ).wheel_count ∧
    ¬ center_inside_wheel (turnCenter (planar_twist (-1) 2 : twist_msg ℝ).linear.x
        (planar_twist (-1) 2 : twist_msg ℝ).angular.z)
      ((sample_rover : wheel_parameters ℝ).wheel_positions 0).y ∧
    ∃ msg : wheel_msg ℝ,
      (wheel_ackermann_task_cycle real_libm sample_rover (wheel_state_const 9)
        (some (planar_twist (-1) 2)) 11).1.xWheelQueue = some msg ∧
      |msg.speed 0|
        = |(planar_twist (-1) 2 : twist_msg ℝ).angular.z|
          * hypotenuse real_libm (opposite ((sample_rover : wheel_parameters ℝ).wheel_positions 0))
              (adjacent (turnCenter (planar_twist (-1) 2 : twist_msg ℝ).linear.x
                (planar_twist (-1) 2 : twist_msg ℝ).angular.z)
                ((sample_rover : wheel_parameters ℝ).wheel_positions 0)) ∧
      (planar_twist (-1) 2 : twist_msg ℝ).linear.x ≠ 0 ∧
      (0 < (planar_twist (-1) 2 : twist_msg ℝ).linear.x → 0 ≤ msg.speed 0) ∧
      ((planar_twist (-1) 2 : twist_msg ℝ).linear.x < 0 → msg.speed 0 ≤ 0) := by
  have hz : (planar_twist (-1) 2 : twist_msg ℝ).angular.z ≠ 0 := by norm_num [planar_twist]
  have htc : turnCenter (planar_twist (-1) 2 : twist_msg ℝ).linear.x
      (planar_twist (-1) 2 : twist_msg ℝ).angular.z ≠ 0 := by
    norm_num [planar_twist, turnCenter]
  have hno : ¬ center_inside_wheel (turnCenter (planar_twist (-1) 2 : twist_msg ℝ).linear.x
        (planar_twist (-1) 2 : twist_msg ℝ).angular.z)
      ((sample_rover : wheel_parameters ℝ).wheel_positions 0).y := by
    norm_num [planar_twist, turnCenter, sample_rover, center_inside_wheel]
  exact ⟨hz, htc, by decide, hno,
    C14_sign_restoration sample_rover (wheel_state_const 9) (planar_twist (-1) 2) 11 0 hz htc
      (by decide) hno⟩

/-! ## Mirror symmetry -/

theorem turnCenter_mirror {F : Type} [LinearOrderedField F] (v w : F) :
    turnCenter v (-w) = -turnCenter v w := by
  unfold turnCenter
  rw [div_neg]

theorem adjacent_mirror {F : Type} [LinearOrderedField F] (tc : F) (p : wheel_position F) :
    adjacent (-tc) { x := p.x, y := -p.y } = -adjacent tc p := by
  unfold adjacent
  ring

theorem strictly_between_mirror {F : Type} [LinearOrderedField F] (tc y : F) :
    strictly_between_zero_and (-tc) (-y) ↔ strictly_between_zero_and tc y := by
  unfold strictly_between_zero_and
  constructor
  · rintro (⟨h1, h2⟩ | ⟨h1, h2⟩)
    · exact Or.inr ⟨by linarith, by linarith⟩
    · exact Or.inl ⟨by linarith, by linarith⟩
  · rintro (⟨h1, h2⟩ | ⟨h1, h2⟩)
    · exact Or.inr ⟨by linarith, by linarith⟩
    · exact Or.inl ⟨by linarith, by linarith⟩

theorem wheel_speed_mirror {F : Type} [LinearOrderedField F] (lm : libm F) (v w : F)
    (p : wheel_position F) (hv : v ≠ 0) (hw : w ≠ 0) :
    wheel_speed lm v (-w) { x := p.x, y := -p.y } = wheel_speed lm v w p := by
  have ht : turnCenter v w ≠ 0 := div_ne_zero hv hw
  have hres : arc_resigned_speed lm v (-w) { x := p.x, y := -p.y }
      = arc_resigned_speed lm v w p := by
    unfold arc_resigned_speed
    rw [turnCenter_mirror, adjacent_mirror]
    unfold resigned_speed hypotenuse opposite copysign
    rw [if_pos (neg_ne_zero.mpr ht), if_pos ht, neg_sq, neg_mul, abs_neg]
  rw [wheel_speed_eq, wheel_speed_eq, hres, turnCenter_mirror]
  simp only [strictly_between_mirror]

theorem real_wheel_steer_mirror (v w : ℝ) (p : wheel_position ℝ)
    (ha : p.x = 0 ∨ adjacent (turnCenter v w) p ≠ 0) :
    wheel_steer real_libm v (-w) { x := p.x, y := -p.y } = -wheel_steer real_libm v w p := by
  unfold wheel_steer
  rw [turnCenter_mirror, adjacent_mirror]
  unfold steer_angle opposite
  by_cases hx : p.x = 0
  · simp [hx]
  · have ha' : adjacent (turnCenter v w) p ≠ 0 := by
      rcases ha with h | h
      · exact absurd h hx
      · exact h
    simp only [hx, if_false, atan_quotient, ha', neg_eq_zero, real_libm, div_neg,
      Real.arctan_neg]

/-- C20, as stated, fails: for `linear.x = 1`, `angular.z = 1` and a wheel at `(1, 1)` the
turn centre is at the wheel's `y`, `adjacent = 0` and the published steer is `π/2`; for
the mirrored command `(1, -1)` and the mirrored wheel `(1, -1)`, `adjacent` is `0` again
and the published steer is `π/2` too, not the negated `-π/2`. -/
theorem C20_mirror_symmetry_counterexample :
    adjacent (turnCenter (1 : ℝ) 1) { x := 1, y := 1 } = 0 ∧
    adjacent (turnCenter (1 : ℝ) (-1)) { x := 1, y := -1 } = 0 ∧
    (wheel_ackermann_task_cycle real_libm (single_wheel_rover { x := 1, y := 1 })
        (wheel_state_const 9) (some (planar_twist 1 1)) 11).1.xWheelQueue
      = some (solve real_libm (single_wheel_rover { x := 1, y := 1 }) (planar_twist 1 1)
          (wheel_state_const (9 : ℝ)).wheelData 11) ∧
    (wheel_ackermann_task_cycle real_libm (single_wheel_rover { x := 1, y := -1 })
        (wheel_state_const 9) (some (planar_twist 1 (-1))) 11).1.xWheelQueue
      = some (solve real_libm (single_wheel_rover { x := 1, y := -1 }) (planar_twist 1 (-1))
          (wheel_state_const (9 : ℝ)).wheelData 11) ∧
    (solve real_libm (single_wheel_rover { x := 1, y := 1 }) (planar_twist 1 1)
        (wheel_state_const (9 : ℝ)).wheelData 11).steer 0 = Real.pi / 2 ∧
    (solve real_libm (single_wheel_rover { x := 1, y := -1 }) (planar_twist 1 (-1))
        (wheel_state_const (9 : ℝ)).wheelData 11).steer 0 = Real.pi / 2 ∧
    (solve real_libm (single_wheel_rover { x := 1, y := -1 }) (planar_twist 1 (-1))
        (wheel_state_const (9 : ℝ)).wheelData 11).steer 0
      ≠ -(solve real_libm (single_wheel_rover { x := 1, y := 1 }) (planar_twist 1 1)
          (wheel_state_const (9 : ℝ)).wheelData 11).steer 0 := by
  have hz1 : (planar_twist 1 1 : twist_msg ℝ).angular.z ≠ 0 := by norm_num [planar_twist]
  have hz2 : (planar_twist 1 (-1) : twist_msg ℝ).angular.z ≠ 0 := by norm_num [planar_twist]
  have ha1 : adjacent (turnCenter (1 : ℝ) 1) { x := 1, y := 1 } = 0 := by
    simp [adjacent, turnCenter]
  have ha2 : adjacent (turnCenter (1 : ℝ) (-1)) { x := 1, y := -1 } = 0 := by
    norm_num [adjacent, turnCenter]
  have hs1 : (solve real_libm (single_wheel_rover { x := 1, y := 1 }) (planar_twist 1 1)
      (wheel_state_const (9 : ℝ)).wheelData 11).steer 0 = Real.pi / 2 := by
    rw [(solve_arc real_libm (single_wheel_rover { x := 1, y := 1 }) (planar_twist 1 1)
      (wheel_state_const (9 : ℝ)).wheelData 11 0 hz1 (by decide)).1]
    simp only [single_wheel_rover, planar_twist, wheel_steer, ha1, steer_angle, opposite,
      atan_quotient, real_libm, one_ne_zero, if_false, if_true, zero_lt_one]
    simp [adjacent_negative_zero, turnCenter_negative_zero]
  have hs2 : (solve real_libm (single_wheel_rover { x := 1, y := -1 }) (planar_twist 1 (-1))
      (wheel_state_const (9 : ℝ)).wheelData 11).steer 0 = Real.pi / 2 := by
    rw [(solve_arc real_libm (single_wheel_rover { x := 1, y := -1 }) (planar_twist 1 (-1))
      (wheel_state_const (9 : ℝ)).wheelData 11 0 hz2 (by decide)).1]
    simp only [single_wheel_rover, planar_twist, wheel_steer, ha2, steer_angle, opposite,
      atan_quotient, real_libm, one_ne_zero, if_false, if_true, zero_lt_one]
    simp [adjacent_negative_zero, turnCenter_negative_zero]
  refine ⟨ha1, ha2, rfl, rfl, hs1, hs2, ?_⟩
  rw [hs1, hs2]
  intro h
  have := Real.pi_pos
  linarith

/-- C20, amended: for every command with `linear.x = v ≠ 0` and `angular.z = w ≠ 0` and
every wheel at `(x, y)`, the cycle for `(v, -w)` publishes for the mirrored wheel
`(x, -y)` the speed the cycle for `(v, w)` publishes for `(x, y)`; it publishes the
negated steer angle provided `x = 0` or the turn centre is not at the wheel's `y`
(`adjacent ≠ 0`). -/
theorem C20_mirror_symmetry (cfg1 cfg2 : wheel_parameters ℝ) (s1 s2 : wheel_task_state ℝ)
    (cmd1 cmd2 : twist_msg ℝ) (tick1 tick2 wheel1 wheel2 : ℕ)
    (hv : cmd1.linear.x ≠ 0) (hw : cmd1.angular.z ≠ 0)
    (hv2 : cmd2.linear.x = cmd1.linear.x) (hw2 : cmd2.angular.z = -cmd1.angular.z)
    (h1 : wheel1 < cfg1.wheel_count) (h2 : wheel2 < cfg2.wheel_count)
    (hpos : cfg2.wheel_positions wheel2
      = { x := (cfg1.wheel_positions wheel1).x, y := -(cfg1.wheel_positions wheel1).y }) :
    ∃ msg1 msg2 : wheel_msg ℝ,
      (wheel_ackermann_task_cycle real_libm cfg1 s1 (some cmd1) tick1).1.xWheelQueue
        = some msg1 ∧
      (wheel_ackermann_task_cycle real_libm cfg2 s2 (some cmd2) tick2).1.xWheelQueue
        = some msg2 ∧
      msg2.speed wheel2 = msg1.speed wheel1 ∧
      ((cfg1.wheel_positions wheel1).x = 0 ∨
          adjacent (turnCenter cmd1.linear.x cmd1.angular.z) (cfg1.wheel_positions wheel1) ≠ 0 →
        msg2.steer wheel2 = -msg1.steer wheel1) := by
  have hz2 : cmd2.angular.z ≠ 0 := by rw [hw2]; exact neg_ne_zero.mpr hw
  obtain ⟨hst1, hsp1⟩ := solve_arc real_libm cfg1 cmd1 s1.wheelData tick1 wheel1 hw h1
  obtain ⟨hst2, hsp2⟩ := solve_arc real_libm cfg2 cmd2 s2.wheelData tick2 wheel2 hz2 h2
  refine ⟨_, _, rfl, rfl, ?_, ?_⟩
  · rw [hsp1, hsp2, hv2, hw2, hpos, wheel_speed_mirror real_libm _ _ _ hv hw]
  · intro ha
    rw [hst1, hst2, hv2, hw2, hpos, real_wheel_steer_mirror _ _ _ ha]

/-- Witness of the amended C20: the arc `(1, 1)` with wheel 1 of the sample rover at
`(1/2, 2)`, and the mirrored arc `(1, -1)` with a single wheel at `(1/2, -2)`. -/
theorem C20_mirror_symmetry_witness :
    (planar_twist 1 1 : twist_msg ℝ).linear.x ≠ 0 ∧
    (planar_twist 1 1 : twist_msg ℝ).angular.z ≠ 0 ∧
    adjacent (turnCenter (planar_twist 1 1 : twist_msg ℝ).linear.x
        (planar_twist 1 1 : twist_msg ℝ).angular.z)
      ((sample_rover : wheel_parameters ℝ).wheel_positions 1) ≠ 0 ∧
    ∃ msg1 msg2 : wheel_msg ℝ,
      (wheel_ackermann_task_cycle real_libm sample_rover (wheel_state_const 9)
        (some (planar_twist 1 1)) 11).1.xWheelQueue = some msg1 ∧
      (wheel_ackermann_task_cycle real_libm (single_wheel_rover { x := 1 / 2, y := -2 })
        (wheel_state_const 3) (some (planar_twist 1 (-1))) 12).1.xWheelQueue = some msg2 ∧
      msg2.speed 0 = msg1.speed 1 ∧
      msg2.steer 0 = -msg1.steer 1 := by
  have hx : (planar_twist 1 1 : twist_msg ℝ).linear.x ≠ 0 := by norm_num [planar_twist]
  have hz : (planar_twist 1 1 : twist_msg ℝ).angular.z ≠ 0 := by norm_num [planar_twist]
  have ha : adjacent (turnCenter (planar_twist 1 1 : twist_msg ℝ).linear.x
      (planar_twist 1 1 : twist_msg ℝ).angular.z)
      ((sample_rover : wheel_parameters ℝ).wheel_positions 1) ≠ 0 := by
    norm_num [planar_twist, sample_rover, adjacent, turnCenter]
  obtain ⟨msg1, msg2, hq1, hq2, hspeed, hsteer⟩ :=
    C20_mirror_symmetry sample_rover (single_wheel_rover { x := 1 / 2, y := -2 })
      (wheel_state_const 9) (wheel_state_const 3) (planar_twist 1 1) (planar_twist 1 (-1))
      11 12 1 0 hx hz rfl rfl (by decide) (by decide)
      (by simp [single_wheel_rover, sample_rover])
  exact ⟨hx, hz, ha, msg1, msg2, hq1, hq2, hspeed, hsteer (Or.inr ha)⟩

/-! ## Start of the tasks -/

/-- C12, as stated, fails: with a queue handle that is not null and `rmt_config` failing
on both axes, the task prints the two error lines, does not delete itself, runs the one
iteration of the read loop it is given and publishes a snapshot into the empty queue. -/
theorem C12_fatal_misconfiguration_counterexample :
    ESP_OK ≠ setup_config_failed.rmt_config ∧
    (joy_rmt_rc_read_task hobby_calibration 2 (some 1) (fun _ => setup_config_failed)
      (joy_state_const (5 : ℚ)) [(fun _ => some (pulse_capture 1250), 7)]).deleted = false ∧
    (joy_rmt_rc_read_task hobby_calibration 2 (some 1) (fun _ => setup_config_failed)
      (joy_state_const (5 : ℚ)) [(fun _ => some (pulse_capture 1250), 7)]).printed
        = [joy_print.rmt_config_failed, joy_print.rmt_config_failed] ∧
    (joy_rmt_rc_read_task hobby_calibration 2 (some 1) (fun _ => setup_config_failed)
      (joy_state_const (5 : ℚ)) [(fun _ => some (pulse_capture 1250), 7)]).iterations = 1 ∧
    (joy_state_const (5 : ℚ)).xJoystickQueue = none ∧
    (joy_rmt_rc_read_task hobby_calibration 2 (some 1) (fun _ => setup_config_failed)
      (joy_state_const (5 : ℚ))
      [(fun _ => some (pulse_capture 1250), 7)]).state.xJoystickQueue.isSome = true :=
  ⟨by decide, rfl, by decide, rfl, rfl, rfl⟩

/-- C12, amended: if the decoder's queue parameter is null, `joy_rmt_rc_read_task` deletes
itself without entering the read loop and publishes no snapshot; if the solver's
parameters, command queue or wheel queue is null, `wheel_ackermann_task` deletes itself
without entering its loop and publishes no wheel command. -/
theorem C12_fatal_misconfiguration {F : Type} [LinearOrderedField F] (c : rc_calibration)
    (axis_count : ℕ) (setup : ℕ → rmt_axis_setup) (s : joy_task_state F)
    (inputs : List ((ℕ → Option rmt_capture) × ℕ)) (lm : libm F) (cfg : wheel_parameters F)
    (pvParameter : Option wheel_ackermann_task_parameters) (wheelData : wheel_msg F)
    (tick : ℕ) (queue : Option (wheel_msg F)) (commands : List (Option (twist_msg F) × ℕ))
    (hnull : pvParameter = none ∨
      ∃ pTaskParameters, pvParameter = some pTaskParameters ∧
        (pTaskParameters.xCmdVelQueue = none ∨ pTaskParameters.xWheelQueue = none)) :
    ((joy_rmt_rc_read_task c axis_count none setup s inputs).deleted = true ∧
      (joy_rmt_rc_read_task c axis_count none setup s inputs).iterations = 0 ∧
      (joy_rmt_rc_read_task c axis_count none setup s inputs).state.xJoystickQueue
        = s.xJoystickQueue) ∧
    ((wheel_ackermann_task lm cfg pvParameter wheelData tick queue commands).deleted = true ∧
      (wheel_ackermann_task lm cfg pvParameter wheelData tick queue commands).iterations = 0 ∧
      (wheel_ackermann_task lm cfg pvParameter wheelData tick queue commands).state.xWheelQueue
        = queue) := by
  refine ⟨⟨rfl, rfl, rfl⟩, ?_⟩
  rcases hnull with h | ⟨pTaskParameters, h, hq⟩
  · subst h
    exact ⟨rfl, rfl, rfl⟩
  · subst h
    have hcond : (pTaskParameters.xCmdVelQueue.isNone || pTaskParameters.xWheelQueue.isNone)
        = true := by
      rcases hq with h | h <;> simp [h]
    refine ⟨?_, ?_, ?_⟩ <;> simp [wheel_ackermann_task, hcond, wheel_ackermann_task_start]

/-- Witness of the amended C12: the decoder started with a null queue, and the solver
started with parameters whose wheel queue is null, each given one iteration to run. -/
theorem C12_fatal_misconfiguration_witness :
    ((some { xCmdVelQueue := some 1, xWheelQueue := none } :
        Option wheel_ackermann_task_parameters) = none ∨
      ∃ pTaskParameters,
        (some { xCmdVelQueue := some 1, xWheelQueue := none } :
          Option wheel_ackermann_task_parameters) = some pTaskParameters ∧
        (pTaskParameters.xCmdVelQueue = none ∨ pTaskParameters.xWheelQueue = none)) ∧
    ((joy_rmt_rc_read_task hobby_calibration 2 none (fun _ => setup_ok)
        (joy_state_const (5 : ℝ)) [(fun _ => some (pulse_capture 1250), 7)]).deleted = true ∧
      (joy_rmt_rc_read_task hobby_calibration 2 none (fun _ => setup_ok)
        (joy_state_const (5 : ℝ)) [(fun _ => some (pulse_capture 1250), 7)]).iterations = 0 ∧
      (joy_rmt_rc_read_task hobby_calibration 2 none (fun _ => setup_ok)
        (joy_state_const (5 : ℝ))
        [(fun _ => some (pulse_capture 1250), 7)]).state.xJoystickQueue
        = (joy_state_const (5 : ℝ)).xJoystickQueue) ∧
    ((wheel_ackermann_task real_libm sample_rover
        (some { xCmdVelQueue := some 1, xWheelQueue := none }) (wheel_msg_const 0 9) 3 none
        [(some (planar_twist 1 0), 4)]).deleted = true ∧
      (wheel_ackermann_task real_libm sample_rover
        (some { xCmdVelQueue := some 1, xWheelQueue := none }) (wheel_msg_const 0 9) 3 none
        [(some (planar_twist 1 0), 4)]).iterations = 0 ∧
      (wheel_ackermann_task real_libm sample_rover
        (some { xCmdVelQueue := some 1, xWheelQueue := none }) (wheel_msg_const 0 9) 3 none
        [(some (planar_twist 1 0), 4)]).state.xWheelQueue = none) :=
  ⟨Or.inr ⟨_, rfl, Or.inr rfl⟩,
    C12_fatal_misconfiguration hobby_calibration 2 (fun _ => setup_ok)
      (joy_state_const (5 : ℝ)) [(fun _ => some (pulse_capture 1250), 7)]
      real_libm sample_rover (some { xCmdVelQueue := some 1, xWheelQueue := none })
      (wheel_msg_const 0 9) 3 none [(some (planar_twist 1 0), 4)]
      (Or.inr ⟨_, rfl, Or.inr rfl⟩)⟩

end Sawppy
